import Mathlib

/-!
# Memory-management-unit simulator: embedding of `mmu.c`, `mmu.h`, `tlb.h`

The C globals `CR3`, `SUPER`, the memory the page tables live in and the
translation cache are gathered in a `Machine` record that every entry point
receives and returns.  Unsigned 32-bit values are natural numbers; a shift
that could leave the 32-bit range is reduced modulo `2 ^ 32`.
-/

namespace MMU

/-! ## Data model (`mmu.h`) -/

/-- Status tag of `result_t` (the anonymous enum in `struct result_st`). -/
inductive status_t where
  | SUCCESS
  | PAGEFAULT
  | PROTFAULT
  | NOTIMPLEMENTED
  deriving DecidableEq, Repr

/-- Record `result_t`: a status and the union payload (`pa`, `vpn` or `pte`,
all stored in the same cell). -/
structure result_t where
  status : status_t
  value : Nat
  deriving DecidableEq, Repr

/-- Enum `access_t`: the three ways a program can access memory. -/
inductive access_t where
  | READ
  | WRITE
  | EXECUTE
  deriving DecidableEq, Repr

/-- Integer value of an `access_t` constant (`READ` 0, `WRITE` 1, `EXECUTE` 2). -/
def access_t.toNat : access_t → Nat
  | .READ => 0
  | .WRITE => 1
  | .EXECUTE => 2

/-! ## Translation cache (`tlb.h`) -/

/-- One slot of the translation cache. -/
structure TLBSlot where
  valid : Bool
  tag : Nat
  entry : Nat
  deriving DecidableEq, Repr

/-- Contents of the translation cache: the slot held at each index. -/
def TLBState : Type := Nat → TLBSlot

/-- Modelled from the spec: the body of `tlb_flush` is not part of the sources
(only its declaration in `tlb.h`); section 4.2 says it sets every slot
invalid. -/
def tlb_flush (t : TLBState) : TLBState :=
  fun i => { t i with valid := false }

/-- Modelled from the spec: the body of `tlb_search` is not part of the sources
(only its declaration); section 4.2 says it is a read-only probe returning the
cached entry iff the slot at `index` is valid and its tag equals `tag`.
The parameters are `unsigned char index` and `unsigned short tag`, so the
arguments are narrowed to 8 and 16 bits. -/
def tlb_search (t : TLBState) (index tag : Nat) : Option Nat :=
  let index := index % 256
  let tag := tag % 65536
  if (t index).valid = true ∧ (t index).tag = tag then some (t index).entry else none

/-- Modelled from the spec: the body of `tlb_add` is not part of the sources
(only its declaration); section 4.2 says it always makes the slot at `index`
hold `(tag, entry, valid)` and reports, as an advisory outcome, whether the
slot already held a valid entry with the same tag.  The parameters are
`unsigned char index`, `unsigned short tag` and `unsigned int pte`. -/
def tlb_add (t : TLBState) (index tag pte : Nat) : TLBState × Bool :=
  let index := index % 256
  let tag := tag % 65536
  let pte := pte % 2 ^ 32
  (fun i => if i = index then ⟨true, tag, pte⟩ else t i,
   decide ((t index).valid = true ∧ (t index).tag = tag))

/-! ## Ambient state -/

/-- The globals the translators work on: the root-table register `CR3`, the
supervisor flag `SUPER`, the word stored at each address, and the cache. -/
structure Machine where
  CR3 : Nat
  SUPER : Int
  mem : Nat → Nat
  tlb : TLBState

/-- Read `base[i]` for `unsigned int *base`: the 32-bit word at byte address
`base + 4 * i`. -/
def load (mem : Nat → Nat) (base i : Nat) : Nat :=
  mem (base + 4 * i) % 2 ^ 32

/-! ## Field decoders (`mmu.c`) -/

/-- Virtual page number of an address. -/
def vpn (virtAdress : Nat) : Nat :=
  (virtAdress >>> 8) &&& 0xFFFFFF

/-- Valid bit of a page-table entry. -/
def check_pte_valid (pageTabEnt : Nat) : Nat :=
  (pageTabEnt >>> 31) &&& 1

/-- Physical address built from a page-table entry and a virtual address. -/
def makeAddress (pageTabEnt virtAddress : Nat) : Nat :=
  let phyPageNum := (pageTabEnt >>> 4) &&& 0xFFFFFF
  let pageOff := virtAddress &&& 0xFF
  ((phyPageNum <<< 8) % 2 ^ 32) ||| pageOff

/-- Valid bit of a directory pointer. -/
def valid_dir (dirAddress : Nat) : Nat :=
  dirAddress &&& 1

/-- Directory index of a 32-bit address. -/
def get_dirI (virtalAddress : Nat) : Nat :=
  (virtalAddress >>> 24) &&& 0xFF

/-- Page-table index of a 32-bit address. -/
def get_ptIndex (virtalAddress : Nat) : Nat :=
  (virtalAddress >>> 16) &&& 0xFF

/-- Page-table-entry index of a 32-bit address. -/
def get_pteIndex (virtalAddress : Nat) : Nat :=
  (virtalAddress >>> 8) &&& 0xFF

/-- Address held in a directory pointer. -/
def get_addr (virtalAddress : Nat) : Nat :=
  ((virtalAddress >>> 4) <<< 4) % 2 ^ 32

/-- Execute bit of a page-table entry. -/
def is_exec (page : Nat) : Nat :=
  page &&& 1

/-- Whether the page is readable and not writable. -/
def read_only (page : Nat) : Nat :=
  if (page &&& 0x6) = 0x4 then 1 else 0

/-- Privilege bit of a page-table entry. -/
def has_perm (page : Nat) : Nat :=
  (page >>> 3) &&& 1

/-- Cache index of a virtual page number. -/
def tlbIndex (vpn : Nat) : Nat :=
  vpn &&& 0xFF

/-- Cache tag of a virtual page number. -/
def tlbTag (vpn : Nat) : Nat :=
  (vpn >>> 8) &&& 0xFFFF

/-! ## Result constructors -/

/-- Protection fault carrying the entry. -/
def callProtFault (result : result_t) (page : Nat) : result_t :=
  { result with status := .PROTFAULT, value := page }

/-- Page fault carrying the virtual page number. -/
def callPageFault (result : result_t) (va : Nat) : result_t :=
  { result with status := .PAGEFAULT, value := vpn va }

/-- Success carrying the physical address. -/
def callSuccess (result : result_t) (va page : Nat) : result_t :=
  { result with status := .SUCCESS, value := makeAddress page va }

/-- Protection check applied to an entry found in the cache. -/
def call_faults (SUPER : Int) (use : access_t) (page : Nat) : Nat :=
  if SUPER = 0 ∧ has_perm page ≠ 0 then 1
  else if is_exec page = 0 ∧ use.toNat = 2 then 1
  else if read_only page ≠ 0 ∧ use.toNat = 1 then 1
  else 0

/-! ## Translators -/

/-- The 16-bit legacy translator. -/
def mmu_legacy (m : Machine) (va : Nat) : result_t × Machine :=
  let result : result_t := ⟨.NOTIMPLEMENTED, 0⟩
  let pageEntry := load m.mem m.CR3 (vpn va)
  if check_pte_valid pageEntry ≠ 0 then
    ({ result with status := .SUCCESS, value := makeAddress pageEntry va }, m)
  else
    ({ result with status := .PAGEFAULT, value := vpn va }, m)

/-- The 32-bit translator with protection.  On a hit `tlb_search` hands the
cached entry back through `tlb_pte`, which the code reads as an
`unsigned int`. -/
def mmu_resolve (m : Machine) (va : Nat) (use : access_t) : result_t × Machine :=
  let result : result_t := ⟨.NOTIMPLEMENTED, 0⟩
  let vpnVal := vpn va
  let tIndex := tlbIndex vpnVal
  let tTag := tlbTag vpnVal
  match tlb_search m.tlb tIndex tTag with
  | some tlb_pte =>
    let pteCheck := tlb_pte % 2 ^ 32
    if call_faults m.SUPER use pteCheck ≠ 0 then
      (callProtFault result pteCheck, m)
    else
      let m1 := { m with tlb := (tlb_add m.tlb tIndex tTag (tlb_pte % 2 ^ 32)).1 }
      (callSuccess result va pteCheck, m1)
  | none =>
    let dir_index := load m.mem m.CR3 (get_dirI va)
    let page_index := load m.mem (get_addr dir_index) (get_ptIndex va)
    let page := load m.mem (get_addr page_index) (get_pteIndex va)
    if valid_dir dir_index ≠ 0 then
      if valid_dir page_index ≠ 0 then
        if check_pte_valid page ≠ 0 then
          if m.SUPER = 0 ∧ has_perm page ≠ 0 then
            (callProtFault result page, m)
          else if is_exec page = 0 ∧ use.toNat = 2 then
            (callProtFault result page, m)
          else if read_only page ≠ 0 ∧ use.toNat = 1 then
            (callProtFault result page, m)
          else
            let m1 := { m with tlb := (tlb_add m.tlb tIndex tTag page).1 }
            (callSuccess result va page, m1)
        else
          (callPageFault result va, m)
      else
        (result, m)
    else
      (result, m)

/-! ## Concrete machines -/

/-- A small memory image: a root table at `0x1000`, a directory at `0x2000`
and a page table at `0x3000`. -/
def demoMem : Nat → Nat := fun a =>
  if a = 0x1004 then 0x2001
  else if a = 0x1008 then 0x2000
  else if a = 0x2008 then 0x3001
  else if a = 0x300C then 0x80000006
  else if a = 0x3010 then 0x8000001F
  else if a = 0x3014 then 0x80000020
  else 0

/-- A cache with every slot invalid. -/
def emptyTLB : TLBState := fun _ => ⟨false, 0, 0⟩

/-- User-mode machine over `demoMem` with an empty cache. -/
def demoMachine : Machine := ⟨0x1000, 0, demoMem, emptyTLB⟩

/-- Supervisor-mode machine over `demoMem` with an empty cache. -/
def demoSuper : Machine := ⟨0x1000, 1, demoMem, emptyTLB⟩

/-- Legacy-mode machine: `CR3` points at the array of leaf entries. -/
def demoLegacy : Machine := ⟨0x3000, 0, demoMem, emptyTLB⟩

/-- A cache whose slots 3, 4 and 5 hold the three leaf entries of `demoMem`
under tag `0x0102`. -/
def demoTLB : TLBState := fun i =>
  if i = 3 then ⟨true, 0x0102, 0x80000006⟩
  else if i = 4 then ⟨true, 0x0102, 0x8000001F⟩
  else if i = 5 then ⟨true, 0x0102, 0x80000020⟩
  else ⟨false, 0, 0⟩

/-- User-mode machine whose cache already holds the leaf entries. -/
def demoCached : Machine := ⟨0x1000, 0, demoMem, demoTLB⟩

/-- A cache whose slot 3 holds, under tag `0x0102`, the word `0x00000026`:
bit 31 clear, not privileged, readable, writable, not executable. -/
def staleTLB : TLBState := fun i =>
  if i = 3 then ⟨true, 0x0102, 0x00000026⟩ else ⟨false, 0, 0⟩

/-- User-mode machine over `demoMem` with the cache `staleTLB`. -/
def demoStale : Machine := ⟨0x1000, 0, demoMem, staleTLB⟩

/-- A machine with another root register and an all-zero memory, sharing the
cache and mode of `demoStale`. -/
def demoStaleBlank : Machine := ⟨0x7000, 0, fun _ => 0, staleTLB⟩

/-! ## Auxiliary notions for the cache and the gate -/

/-- The `tlb_add` calls made by `mmu_resolve`, in order, each as
(index, tag, pte): the branches of `mmu_resolve`, recording the calls in place
of performing them. -/
def mmu_resolve_adds (m : Machine) (va : Nat) (use : access_t) : List (Nat × Nat × Nat) :=
  let vpnVal := vpn va
  let tIndex := tlbIndex vpnVal
  let tTag := tlbTag vpnVal
  match tlb_search m.tlb tIndex tTag with
  | some tlb_pte =>
    let pteCheck := tlb_pte % 2 ^ 32
    if call_faults m.SUPER use pteCheck ≠ 0 then []
    else [(tIndex, tTag, tlb_pte % 2 ^ 32)]
  | none =>
    let dir_index := load m.mem m.CR3 (get_dirI va)
    let page_index := load m.mem (get_addr dir_index) (get_ptIndex va)
    let page := load m.mem (get_addr page_index) (get_pteIndex va)
    if valid_dir dir_index ≠ 0 then
      if valid_dir page_index ≠ 0 then
        if check_pte_valid page ≠ 0 then
          if m.SUPER = 0 ∧ has_perm page ≠ 0 then []
          else if is_exec page = 0 ∧ use.toNat = 2 then []
          else if read_only page ≠ 0 ∧ use.toNat = 1 then []
          else [(tIndex, tTag, page)]
        else []
      else []
    else []

/-- Perform a list of `tlb_add` calls on a cache, in order. -/
def replayAdds (t : TLBState) (calls : List (Nat × Nat × Nat)) : TLBState :=
  calls.foldl (fun s c => (tlb_add s c.1 c.2.1 c.2.2).1) t

/-- The three-branch permission check written inline in the walk path of
`mmu_resolve`: true when one of the branches calling `callProtFault` is taken. -/
def walk_gate (SUPER : Int) (use : access_t) (page : Nat) : Bool :=
  if SUPER = 0 ∧ has_perm page ≠ 0 then true
  else if is_exec page = 0 ∧ use.toNat = 2 then true
  else if read_only page ≠ 0 ∧ use.toNat = 1 then true
  else false

/-- The table walk of `mmu_resolve` for the virtual page `v` goes through a
valid directory pointer and a valid table pointer and reads the leaf entry
`e`, whose valid bit is set. -/
def walksTo (m : Machine) (v e : Nat) : Prop :=
  valid_dir (load m.mem m.CR3 (get_dirI (v <<< 8))) ≠ 0 ∧
  valid_dir (load m.mem (get_addr (load m.mem m.CR3 (get_dirI (v <<< 8))))
    (get_ptIndex (v <<< 8))) ≠ 0 ∧
  load m.mem (get_addr (load m.mem (get_addr (load m.mem m.CR3 (get_dirI (v <<< 8))))
    (get_ptIndex (v <<< 8)))) (get_pteIndex (v <<< 8)) = e ∧
  check_pte_valid e ≠ 0

/-- Cache coherence: every valid slot `i` with tag `t` holds the leaf entry
the walk reads for the virtual page `(t << 8) | i`. -/
def coherent (m : Machine) : Prop :=
  ∀ i, i < 256 → (m.tlb i).valid = true →
    walksTo m (((m.tlb i).tag <<< 8) ||| i) (m.tlb i).entry

/-- A sequence of `mmu_resolve` calls, each on the machine left by the one
before; the results are dropped. -/
def resolveAll (m : Machine) : List (Nat × access_t) → Machine
  | [] => m
  | (va, use) :: rest => resolveAll (mmu_resolve m va use).2 rest

/-! ## Bit-level lemmas -/

theorem and_ff (x : Nat) : x &&& 0xFF = x % 256 :=
  Nat.and_pow_two_sub_one_eq_mod x 8

theorem and_ffff (x : Nat) : x &&& 0xFFFF = x % 65536 :=
  Nat.and_pow_two_sub_one_eq_mod x 16

theorem and_ffffff (x : Nat) : x &&& 0xFFFFFF = x % 16777216 :=
  Nat.and_pow_two_sub_one_eq_mod x 24

theorem shr_eq_div (x k : Nat) : x >>> k = x / 2 ^ k :=
  Nat.shiftRight_eq_div_pow x k

theorem testBit_iff_mod (x k : Nat) : x.testBit k = true ↔ x / 2 ^ k % 2 = 1 := by
  rw [Nat.testBit_to_div_mod]; simp

theorem bit_field_ne_zero (x k : Nat) : ((x >>> k) &&& 1 ≠ 0) ↔ x.testBit k = true := by
  rw [Nat.and_one_is_mod, Nat.shiftRight_eq_div_pow, Nat.testBit_to_div_mod]
  simp

theorem shl_or_eq_add (a b k : Nat) (hb : b < 2 ^ k) : (a <<< k) ||| b = a * 2 ^ k + b := by
  rw [Nat.shiftLeft_eq, Nat.mul_comm a, Nat.mul_add_lt_is_or hb]

/-- Masking with a run of `n` ones starting at bit `k` keeps exactly that field. -/
theorem and_shifted_mask (x n k : Nat) :
    x &&& ((2 ^ n - 1) <<< k) = ((x >>> k) % 2 ^ n) <<< k := by
  apply Nat.eq_of_testBit_eq
  intro i
  simp only [Nat.testBit_and, Nat.testBit_shiftLeft, Nat.testBit_two_pow_sub_one,
    Nat.testBit_mod_two_pow, Nat.testBit_shiftRight]
  by_cases h : k ≤ i
  · have : k + (i - k) = i := by omega
    simp [h, this, Bool.and_comm]
  · simp [h]

theorem and_fffffff0 (x : Nat) (hx : x < 2 ^ 32) : x &&& 0xFFFFFFF0 = x / 16 * 16 := by
  have h := and_shifted_mask x 28 4
  have e : (2 ^ 28 - 1) <<< 4 = 0xFFFFFFF0 := by decide
  rw [e] at h
  rw [h, Nat.shiftLeft_eq, shr_eq_div]
  have : x / 2 ^ 4 % 2 ^ 28 = x / 2 ^ 4 := Nat.mod_eq_of_lt (by omega)
  rw [this]
  norm_num

theorem and_6 (x : Nat) : x &&& 0x6 = x / 2 % 4 * 2 := by
  have h := and_shifted_mask x 2 1
  have e : (2 ^ 2 - 1) <<< 1 = 0x6 := by decide
  rw [e] at h
  rw [h, Nat.shiftLeft_eq, shr_eq_div]
  norm_num

/-! ## Decoder lemmas -/

theorem load_lt (mem : Nat → Nat) (base i : Nat) : load mem base i < 2 ^ 32 :=
  Nat.mod_lt _ (by decide)

theorem vpn_of_lt (va : Nat) (h : va < 2 ^ 32) : vpn va = va >>> 8 := by
  unfold vpn
  rw [and_ffffff, shr_eq_div]
  apply Nat.mod_eq_of_lt
  omega

theorem tlbIndex_vpn (va : Nat) : tlbIndex (vpn va) = (va >>> 8) &&& 0xFF := by
  unfold tlbIndex vpn
  rw [and_ff, and_ff, and_ffffff, shr_eq_div]
  omega

theorem tlbTag_vpn (va : Nat) : tlbTag (vpn va) = (va >>> 16) &&& 0xFFFF := by
  unfold tlbTag vpn
  rw [and_ffff, and_ffff, and_ffffff, shr_eq_div, shr_eq_div, shr_eq_div]
  omega

theorem get_addr_eq_and (x : Nat) (hx : x < 2 ^ 32) : get_addr x = x &&& 0xFFFFFFF0 := by
  rw [and_fffffff0 x hx]
  unfold get_addr
  rw [Nat.shiftLeft_eq, shr_eq_div]
  apply Nat.mod_eq_of_lt
  omega

theorem makeAddress_eq (e va : Nat) :
    makeAddress e va = (((e >>> 4) &&& 0xFFFFFF) <<< 8) ||| (va &&& 0xFF) := by
  unfold makeAddress
  have h : (((e >>> 4) &&& 0xFFFFFF) <<< 8) % 2 ^ 32 = ((e >>> 4) &&& 0xFFFFFF) <<< 8 := by
    apply Nat.mod_eq_of_lt
    rw [and_ffffff, Nat.shiftLeft_eq]
    have := Nat.mod_lt (e >>> 4) (show 16777216 > 0 by decide)
    omega
  simp only [h]

theorem check_pte_valid_ne_zero (x : Nat) : check_pte_valid x ≠ 0 ↔ x.testBit 31 = true :=
  bit_field_ne_zero x 31

theorem has_perm_ne_zero (x : Nat) : has_perm x ≠ 0 ↔ x.testBit 3 = true :=
  bit_field_ne_zero x 3

theorem valid_dir_ne_zero (x : Nat) : valid_dir x ≠ 0 ↔ x.testBit 0 = true := by
  unfold valid_dir
  rw [Nat.and_one_is_mod, Nat.testBit_zero]
  simp

theorem is_exec_eq_zero (x : Nat) : is_exec x = 0 ↔ x.testBit 0 = false := by
  unfold is_exec
  rw [Nat.and_one_is_mod, Nat.testBit_zero]
  simp

theorem read_only_ne_zero (x : Nat) :
    read_only x ≠ 0 ↔ (x.testBit 2 = true ∧ x.testBit 1 = false) := by
  unfold read_only
  rw [and_6, ← Bool.not_eq_true, testBit_iff_mod, testBit_iff_mod]
  split <;> rename_i h <;> simp <;> omega

/-! ## Gate and path lemmas -/

theorem use_toNat_eq_two (use : access_t) : use.toNat = 2 ↔ use = .EXECUTE := by
  cases use <;> simp [access_t.toNat]

theorem use_toNat_eq_one (use : access_t) : use.toNat = 1 ↔ use = .WRITE := by
  cases use <;> simp [access_t.toNat]

/-- The gate refuses exactly under one of its three rules. -/
theorem call_faults_ne_zero (S : Int) (use : access_t) (e : Nat) :
    call_faults S use e ≠ 0 ↔
      ((S = 0 ∧ e.testBit 3 = true) ∨ (use = .EXECUTE ∧ e.testBit 0 = false) ∨
        (use = .WRITE ∧ e.testBit 2 = true ∧ e.testBit 1 = false)) := by
  unfold call_faults
  simp only [has_perm_ne_zero, is_exec_eq_zero, read_only_ne_zero, use_toNat_eq_two,
    use_toNat_eq_one]
  split_ifs with h1 h2 h3
  · simp [h1]
  · simp [h2]
  · simp [h3]
  · simp only [ne_eq, not_true_eq_false, false_iff]
    tauto

/-- Shape of `mmu_resolve` when the probe hits. -/
theorem mmu_resolve_hit (m : Machine) (va : Nat) (use : access_t) (e : Nat)
    (hhit : tlb_search m.tlb ((va >>> 8) &&& 0xFF) ((va >>> 16) &&& 0xFFFF) = some e)
    (he : e < 2 ^ 32) :
    mmu_resolve m va use =
      if call_faults m.SUPER use e ≠ 0 then (⟨.PROTFAULT, e⟩, m)
      else (⟨.SUCCESS, makeAddress e va⟩,
        { m with tlb := (tlb_add m.tlb ((va >>> 8) &&& 0xFF) ((va >>> 16) &&& 0xFFFF) e).1 }) := by
  unfold mmu_resolve
  simp only [tlbIndex_vpn, tlbTag_vpn, hhit, Nat.mod_eq_of_lt he, callProtFault, callSuccess]

/-- Shape of `mmu_resolve` when the probe misses: the three reads, then the
validity checks in order, then the gate. -/
theorem mmu_resolve_walk (m : Machine) (va : Nat) (use : access_t) (d t l : Nat)
    (hmiss : tlb_search m.tlb ((va >>> 8) &&& 0xFF) ((va >>> 16) &&& 0xFFFF) = none)
    (hd : d = load m.mem m.CR3 ((va >>> 24) &&& 0xFF))
    (ht : t = load m.mem (d &&& 0xFFFFFFF0) ((va >>> 16) &&& 0xFF))
    (hl : l = load m.mem (t &&& 0xFFFFFFF0) ((va >>> 8) &&& 0xFF)) :
    mmu_resolve m va use =
      if d.testBit 0 = true then
        if t.testBit 0 = true then
          if l.testBit 31 = true then
            if call_faults m.SUPER use l ≠ 0 then (⟨.PROTFAULT, l⟩, m)
            else (⟨.SUCCESS, makeAddress l va⟩,
              { m with tlb :=
                  (tlb_add m.tlb ((va >>> 8) &&& 0xFF) ((va >>> 16) &&& 0xFFFF) l).1 })
          else (⟨.PAGEFAULT, vpn va⟩, m)
        else (⟨.NOTIMPLEMENTED, 0⟩, m)
      else (⟨.NOTIMPLEMENTED, 0⟩, m) := by
  have hdlt : d < 2 ^ 32 := hd ▸ load_lt _ _ _
  have htlt : t < 2 ^ 32 := ht ▸ load_lt _ _ _
  rw [← get_addr_eq_and d hdlt] at ht
  rw [← get_addr_eq_and t htlt] at hl
  unfold mmu_resolve
  simp only [tlbIndex_vpn, tlbTag_vpn, hmiss, callProtFault, callSuccess, callPageFault]
  rw [show get_dirI va = (va >>> 24) &&& 0xFF from rfl,
    show get_ptIndex va = (va >>> 16) &&& 0xFF from rfl,
    show get_pteIndex va = (va >>> 8) &&& 0xFF from rfl, ← hd, ← ht, ← hl]
  simp only [valid_dir_ne_zero, check_pte_valid_ne_zero]
  unfold call_faults
  split_ifs <;> first | rfl | (exfalso; simp_all)

/-! ## The legacy translator -/

/-- C1: for a 16-bit address, `mmu_legacy` reads the root-table entry at index
`va >> 8`; when bit 31 of that entry is set it returns SUCCESS with the
physical address `(((entry >> 4) & 0xFFFFFF) << 8) | (va & 0xFF)`, otherwise
PAGEFAULT carrying `va >> 8`, which is below 256. -/
theorem mmu_legacy_contract (m : Machine) (va : Nat) (hva : va < 2 ^ 16) :
    ((load m.mem m.CR3 (va >>> 8)).testBit 31 = true →
      mmu_legacy m va =
        (⟨.SUCCESS, (((load m.mem m.CR3 (va >>> 8) >>> 4) &&& 0xFFFFFF) <<< 8)
            ||| (va &&& 0xFF)⟩, m)) ∧
    ((load m.mem m.CR3 (va >>> 8)).testBit 31 = false →
      mmu_legacy m va = (⟨.PAGEFAULT, va >>> 8⟩, m)) ∧
    va >>> 8 < 256 := by
  have hv : vpn va = va >>> 8 := vpn_of_lt va (by omega)
  refine ⟨fun h => ?_, fun h => ?_, ?_⟩
  · unfold mmu_legacy
    simp only [hv]
    rw [if_pos ((check_pte_valid_ne_zero _).2 h), makeAddress_eq]
  · unfold mmu_legacy
    simp only [hv]
    rw [if_neg (fun hc => by rw [(check_pte_valid_ne_zero _).1 hc] at h; cases h)]
  · rw [shr_eq_div]; omega

/-- Instance of `mmu_legacy_contract`: legacy address `0x0340` of `demoLegacy`
meets the valid entry `0x80000006` and translates to `0x40`. -/
theorem mmu_legacy_contract_witness :
    (0x0340 : Nat) < 2 ^ 16 ∧
    (load demoLegacy.mem demoLegacy.CR3 (0x0340 >>> 8)).testBit 31 = true ∧
    mmu_legacy demoLegacy 0x0340 =
      (⟨.SUCCESS, (((load demoLegacy.mem demoLegacy.CR3 (0x0340 >>> 8) >>> 4) &&& 0xFFFFFF) <<< 8)
          ||| (0x0340 &&& 0xFF)⟩, demoLegacy) :=
  ⟨by decide, by decide, (mmu_legacy_contract demoLegacy 0x0340 (by decide)).1 (by decide)⟩

/-! ## The protected translator: table walk -/

/-- C2: on a probe miss `mmu_resolve` checks validity in the order directory
entry, table entry, leaf entry: a directory entry with bit 0 clear gives
NOTIMPLEMENTED, else a table entry with bit 0 clear gives NOTIMPLEMENTED, else
a leaf entry with bit 31 clear gives PAGEFAULT carrying `va >> 8`, else the
permission gate on the leaf entry decides between PROTFAULT and SUCCESS.  An
invalid directory entry gives NOTIMPLEMENTED even when the leaf entry read
through it is valid. -/
theorem mmu_resolve_walk_order (m : Machine) (va : Nat) (use : access_t) (d t l : Nat)
    (hva : va < 2 ^ 32)
    (hmiss : tlb_search m.tlb ((va >>> 8) &&& 0xFF) ((va >>> 16) &&& 0xFFFF) = none)
    (hd : d = load m.mem m.CR3 ((va >>> 24) &&& 0xFF))
    (ht : t = load m.mem (d &&& 0xFFFFFFF0) ((va >>> 16) &&& 0xFF))
    (hl : l = load m.mem (t &&& 0xFFFFFFF0) ((va >>> 8) &&& 0xFF)) :
    (d.testBit 0 = false → mmu_resolve m va use = (⟨.NOTIMPLEMENTED, 0⟩, m)) ∧
    (d.testBit 0 = true → t.testBit 0 = false →
      mmu_resolve m va use = (⟨.NOTIMPLEMENTED, 0⟩, m)) ∧
    (d.testBit 0 = true → t.testBit 0 = true → l.testBit 31 = false →
      mmu_resolve m va use = (⟨.PAGEFAULT, va >>> 8⟩, m)) ∧
    (d.testBit 0 = true → t.testBit 0 = true → l.testBit 31 = true →
      (mmu_resolve m va use).1 =
        if call_faults m.SUPER use l ≠ 0 then ⟨.PROTFAULT, l⟩
        else ⟨.SUCCESS, (((l >>> 4) &&& 0xFFFFFF) <<< 8) ||| (va &&& 0xFF)⟩) ∧
    (d.testBit 0 = false → l.testBit 31 = true →
      mmu_resolve m va use = (⟨.NOTIMPLEMENTED, 0⟩, m)) := by
  have hw := mmu_resolve_walk m va use d t l hmiss hd ht hl
  refine ⟨fun h0 => ?_, fun h0 h1 => ?_, fun h0 h1 h2 => ?_, fun h0 h1 h2 => ?_,
    fun h0 _ => ?_⟩
  · rw [hw]; simp [h0]
  · rw [hw]; simp [h0, h1]
  · rw [hw, vpn_of_lt va hva]; simp [h0, h1, h2]
  · rw [hw, ← makeAddress_eq]; simp only [h0, h1, h2, if_true]
    split_ifs <;> rfl
  · rw [hw]; simp [h0]

/-- Instance of `mmu_resolve_walk_order`: address `0x02020340` of `demoMachine`
goes through the invalid root entry `0x2000` to the valid leaf `0x80000006`,
and the result is NOTIMPLEMENTED. -/
theorem mmu_resolve_walk_order_witness :
    (0x02020340 : Nat) < 2 ^ 32 ∧
    tlb_search demoMachine.tlb ((0x02020340 >>> 8) &&& 0xFF) ((0x02020340 >>> 16) &&& 0xFFFF)
      = none ∧
    0x2000 = load demoMachine.mem demoMachine.CR3 ((0x02020340 >>> 24) &&& 0xFF) ∧
    0x3001 = load demoMachine.mem (0x2000 &&& 0xFFFFFFF0) ((0x02020340 >>> 16) &&& 0xFF) ∧
    0x80000006 = load demoMachine.mem (0x3001 &&& 0xFFFFFFF0) ((0x02020340 >>> 8) &&& 0xFF) ∧
    Nat.testBit 0x2000 0 = false ∧ Nat.testBit 0x80000006 31 = true ∧
    mmu_resolve demoMachine 0x02020340 .READ = (⟨.NOTIMPLEMENTED, 0⟩, demoMachine) :=
  ⟨by decide, by decide, by decide, by decide, by decide, by decide, by decide,
    (mmu_resolve_walk_order demoMachine 0x02020340 .READ 0x2000 0x3001 0x80000006
      (by decide) (by decide) (by decide) (by decide) (by decide)).1 (by decide)⟩

/-- C3: on a probe miss with valid directory and table pointers and a leaf
entry `e` whose bit 31 is set, `mmu_resolve` returns PROTFAULT carrying `e`
exactly when (`SUPER` is false and bit 3 of `e` is set) or (the access is
EXECUTE and bit 0 is clear) or (the access is WRITE, bit 2 is set and bit 1 is
clear); in every other case it returns SUCCESS with the physical address
`(((e >> 4) & 0xFFFFFF) << 8) | (va & 0xFF)`. -/
theorem mmu_resolve_walk_gate (m : Machine) (va : Nat) (use : access_t) (d t e : Nat)
    (hmiss : tlb_search m.tlb ((va >>> 8) &&& 0xFF) ((va >>> 16) &&& 0xFFFF) = none)
    (hd : d = load m.mem m.CR3 ((va >>> 24) &&& 0xFF))
    (ht : t = load m.mem (d &&& 0xFFFFFFF0) ((va >>> 16) &&& 0xFF))
    (hl : e = load m.mem (t &&& 0xFFFFFFF0) ((va >>> 8) &&& 0xFF))
    (hdv : d.testBit 0 = true) (htv : t.testBit 0 = true) (hev : e.testBit 31 = true) :
    ((mmu_resolve m va use).1 = ⟨.PROTFAULT, e⟩ ↔
      ((m.SUPER = 0 ∧ e.testBit 3 = true) ∨ (use = .EXECUTE ∧ e.testBit 0 = false) ∨
        (use = .WRITE ∧ e.testBit 2 = true ∧ e.testBit 1 = false))) ∧
    (¬ ((m.SUPER = 0 ∧ e.testBit 3 = true) ∨ (use = .EXECUTE ∧ e.testBit 0 = false) ∨
        (use = .WRITE ∧ e.testBit 2 = true ∧ e.testBit 1 = false)) →
      (mmu_resolve m va use).1 =
        ⟨.SUCCESS, (((e >>> 4) &&& 0xFFFFFF) <<< 8) ||| (va &&& 0xFF)⟩) := by
  have hw := mmu_resolve_walk m va use d t e hmiss hd ht hl
  simp only [hdv, htv, hev, if_true] at hw
  rw [hw, ← call_faults_ne_zero, ← makeAddress_eq]
  by_cases hg : call_faults m.SUPER use e ≠ 0
  · simp [hg]
  · simp [hg]

/-- Instance of `mmu_resolve_walk_gate`: a WRITE to `0x01020340` on `demoMachine`
reaches the leaf `0x80000006` and succeeds with physical address `0x40`. -/
theorem mmu_resolve_walk_gate_witness :
    tlb_search demoMachine.tlb ((0x01020340 >>> 8) &&& 0xFF) ((0x01020340 >>> 16) &&& 0xFFFF)
      = none ∧
    0x2001 = load demoMachine.mem demoMachine.CR3 ((0x01020340 >>> 24) &&& 0xFF) ∧
    0x3001 = load demoMachine.mem (0x2001 &&& 0xFFFFFFF0) ((0x01020340 >>> 16) &&& 0xFF) ∧
    0x80000006 = load demoMachine.mem (0x3001 &&& 0xFFFFFFF0) ((0x01020340 >>> 8) &&& 0xFF) ∧
    Nat.testBit 0x2001 0 = true ∧ Nat.testBit 0x3001 0 = true ∧
    Nat.testBit 0x80000006 31 = true ∧
    (mmu_resolve demoMachine 0x01020340 .WRITE).1 =
      ⟨.SUCCESS, (((0x80000006 >>> 4) &&& 0xFFFFFF) <<< 8) ||| (0x01020340 &&& 0xFF)⟩ :=
  ⟨by decide, by decide, by decide, by decide, by decide, by decide, by decide,
    (mmu_resolve_walk_gate demoMachine 0x01020340 .WRITE 0x2001 0x3001 0x80000006
      (by decide) (by decide) (by decide) (by decide) (by decide) (by decide) (by decide)).2
      (by decide)⟩

/-! ## The protected translator: cache hit -/

/-- C4: when `tlb_search` at index `(va >> 8) & 0xFF` and tag
`(va >> 16) & 0xFFFF` hits with cached entry `e`, `mmu_resolve` applies the gate
`call_faults` to `e`: if it passes, the entry is inserted again under the same
index and tag and the result is SUCCESS with physical address
`(((e >> 4) & 0xFFFFFF) << 8) | (va & 0xFF)`; if it fails, the result is
PROTFAULT carrying `e` and the machine, cache included, is unchanged. -/
theorem mmu_resolve_hit_gate (m : Machine) (va : Nat) (use : access_t) (e : Nat)
    (hhit : tlb_search m.tlb ((va >>> 8) &&& 0xFF) ((va >>> 16) &&& 0xFFFF) = some e)
    (he : e < 2 ^ 32) :
    (call_faults m.SUPER use e = 0 →
      mmu_resolve m va use =
        (⟨.SUCCESS, (((e >>> 4) &&& 0xFFFFFF) <<< 8) ||| (va &&& 0xFF)⟩,
          { m with tlb :=
              (tlb_add m.tlb ((va >>> 8) &&& 0xFF) ((va >>> 16) &&& 0xFFFF) e).1 })) ∧
    (call_faults m.SUPER use e ≠ 0 →
      mmu_resolve m va use = (⟨.PROTFAULT, e⟩, m) ∧ (mmu_resolve m va use).2.tlb = m.tlb) := by
  have hh := mmu_resolve_hit m va use e hhit he
  refine ⟨fun h => ?_, fun h => ?_⟩
  · rw [hh, ← makeAddress_eq]; simp [h]
  · rw [hh]; simp [h]

/-- Instance of `mmu_resolve_hit_gate`: on `demoCached` the probe for
`0x01020340` hits with entry `0x80000006`; an EXECUTE is refused and the cache
is left as it was. -/
theorem mmu_resolve_hit_gate_witness :
    tlb_search demoCached.tlb ((0x01020340 >>> 8) &&& 0xFF) ((0x01020340 >>> 16) &&& 0xFFFF)
      = some 0x80000006 ∧
    (0x80000006 : Nat) < 2 ^ 32 ∧
    call_faults demoCached.SUPER .EXECUTE 0x80000006 ≠ 0 ∧
    mmu_resolve demoCached 0x01020340 .EXECUTE = (⟨.PROTFAULT, 0x80000006⟩, demoCached) ∧
    (mmu_resolve demoCached 0x01020340 .EXECUTE).2.tlb = demoCached.tlb :=
  ⟨by decide, by decide, by decide,
    (mmu_resolve_hit_gate demoCached 0x01020340 .EXECUTE 0x80000006 (by decide) (by decide)).2
      (by decide)⟩

/-! ## Physical addresses -/

theorem makeAddress_and_ff (e va : Nat) : makeAddress e va &&& 0xFF = va &&& 0xFF := by
  rw [makeAddress_eq, shl_or_eq_add _ _ 8 (by rw [and_ff]; omega), and_ff, and_ff]
  omega

theorem makeAddress_shr (e va : Nat) : makeAddress e va >>> 8 = (e >>> 4) &&& 0xFFFFFF := by
  rw [makeAddress_eq, shl_or_eq_add _ _ 8 (by rw [and_ff]; omega), and_ff, shr_eq_div]
  omega

theorem makeAddress_lt (e va : Nat) : makeAddress e va < 2 ^ 32 := by
  rw [makeAddress_eq, shl_or_eq_add _ _ 8 (by rw [and_ff]; omega), and_ff, and_ffffff]
  omega

/-- C5: whenever `mmu_legacy` or `mmu_resolve` (on a cache hit or after a walk)
returns SUCCESS with physical address `pa`, the low byte of `pa` is the low
byte of the virtual address, `pa >> 8` is the whole 24-bit field in bits
27..4 of the leaf entry used, and `pa` fits in 32 bits. -/
theorem offset_preservation (m : Machine) :
    (∀ va, va < 2 ^ 16 → (mmu_legacy m va).1.status = .SUCCESS →
      (mmu_legacy m va).1.value &&& 0xFF = va &&& 0xFF ∧
      (mmu_legacy m va).1.value >>> 8 = (load m.mem m.CR3 (va >>> 8) >>> 4) &&& 0xFFFFFF ∧
      (mmu_legacy m va).1.value < 2 ^ 32) ∧
    (∀ va use e,
      tlb_search m.tlb ((va >>> 8) &&& 0xFF) ((va >>> 16) &&& 0xFFFF) = some e →
      e < 2 ^ 32 → (mmu_resolve m va use).1.status = .SUCCESS →
      (mmu_resolve m va use).1.value &&& 0xFF = va &&& 0xFF ∧
      (mmu_resolve m va use).1.value >>> 8 = (e >>> 4) &&& 0xFFFFFF ∧
      (mmu_resolve m va use).1.value < 2 ^ 32) ∧
    (∀ va use d t l,
      tlb_search m.tlb ((va >>> 8) &&& 0xFF) ((va >>> 16) &&& 0xFFFF) = none →
      d = load m.mem m.CR3 ((va >>> 24) &&& 0xFF) →
      t = load m.mem (d &&& 0xFFFFFFF0) ((va >>> 16) &&& 0xFF) →
      l = load m.mem (t &&& 0xFFFFFFF0) ((va >>> 8) &&& 0xFF) →
      (mmu_resolve m va use).1.status = .SUCCESS →
      (mmu_resolve m va use).1.value &&& 0xFF = va &&& 0xFF ∧
      (mmu_resolve m va use).1.value >>> 8 = (l >>> 4) &&& 0xFFFFFF ∧
      (mmu_resolve m va use).1.value < 2 ^ 32) := by
  refine ⟨fun va hva => ?_, fun va use e hhit he => ?_, fun va use d t l hmiss hd ht hl => ?_⟩
  · have hv : vpn va = va >>> 8 := vpn_of_lt va (by omega)
    unfold mmu_legacy
    simp only [hv]
    split_ifs
    · intro _
      exact ⟨makeAddress_and_ff _ _, makeAddress_shr _ _, makeAddress_lt _ _⟩
    · intro h; cases h
  · rw [mmu_resolve_hit m va use e hhit he]
    split_ifs
    · intro h; cases h
    · intro _
      exact ⟨makeAddress_and_ff _ _, makeAddress_shr _ _, makeAddress_lt _ _⟩
  · rw [mmu_resolve_walk m va use d t l hmiss hd ht hl]
    split_ifs <;> intro h <;> first
      | exact ⟨makeAddress_and_ff _ _, makeAddress_shr _ _, makeAddress_lt _ _⟩
      | cases h

/-- Instance of `offset_preservation` on the three paths: legacy address
`0x0340`, a cached WRITE and a walked WRITE to `0x01020340`. -/
theorem offset_preservation_witness :
    ((mmu_legacy demoLegacy 0x0340).1.value &&& 0xFF = 0x0340 &&& 0xFF ∧
      (mmu_legacy demoLegacy 0x0340).1.value >>> 8
        = (load demoLegacy.mem demoLegacy.CR3 (0x0340 >>> 8) >>> 4) &&& 0xFFFFFF ∧
      (mmu_legacy demoLegacy 0x0340).1.value < 2 ^ 32) ∧
    ((mmu_resolve demoCached 0x01020340 .WRITE).1.value &&& 0xFF = 0x01020340 &&& 0xFF ∧
      (mmu_resolve demoCached 0x01020340 .WRITE).1.value >>> 8
        = (0x80000006 >>> 4) &&& 0xFFFFFF ∧
      (mmu_resolve demoCached 0x01020340 .WRITE).1.value < 2 ^ 32) ∧
    ((mmu_resolve demoMachine 0x01020340 .WRITE).1.value &&& 0xFF = 0x01020340 &&& 0xFF ∧
      (mmu_resolve demoMachine 0x01020340 .WRITE).1.value >>> 8
        = (0x80000006 >>> 4) &&& 0xFFFFFF ∧
      (mmu_resolve demoMachine 0x01020340 .WRITE).1.value < 2 ^ 32) :=
  ⟨(offset_preservation demoLegacy).1 0x0340 (by decide) (by decide),
    (offset_preservation demoCached).2.1 0x01020340 .WRITE 0x80000006
      (by decide) (by decide) (by decide),
    (offset_preservation demoMachine).2.2 0x01020340 .WRITE 0x2001 0x3001 0x80000006
      (by decide) (by decide) (by decide) (by decide) (by decide)⟩

/-! ## Cache contract -/

/-- A probe right after an insertion under the same index and tag returns the
inserted entry. -/
theorem tlb_search_tlb_add (t : TLBState) (index tag pte : Nat) :
    tlb_search (tlb_add t index tag pte).1 index tag = some (pte % 2 ^ 32) := by
  simp [tlb_search, tlb_add]

/-- C6: if the probe for `va` misses and `mmu_resolve` returns SUCCESS with
`pa`, then on any machine holding the cache left by that call and the same
`SUPER` (memory and `CR3` do not matter), a second `mmu_resolve` of the same
address and access finds the entry in the cache and returns the same
SUCCESS with `pa`. -/
theorem hit_miss_equivalence (m m2 : Machine) (va : Nat) (use : access_t) (pa : Nat)
    (hmiss : tlb_search m.tlb ((va >>> 8) &&& 0xFF) ((va >>> 16) &&& 0xFFFF) = none)
    (h1 : (mmu_resolve m va use).1 = ⟨.SUCCESS, pa⟩)
    (htlb : m2.tlb = (mmu_resolve m va use).2.tlb)
    (hsuper : m2.SUPER = m.SUPER) :
    (∃ e, tlb_search m2.tlb ((va >>> 8) &&& 0xFF) ((va >>> 16) &&& 0xFFFF) = some e) ∧
    (mmu_resolve m2 va use).1 = ⟨.SUCCESS, pa⟩ := by
  have hw := mmu_resolve_walk m va use _ _ _ hmiss rfl rfl rfl
  generalize hl : load m.mem (load m.mem (load m.mem m.CR3 ((va >>> 24) &&& 0xFF) &&& 0xFFFFFFF0)
    ((va >>> 16) &&& 0xFF) &&& 0xFFFFFFF0) ((va >>> 8) &&& 0xFF) = l at hw
  have hlt : l < 2 ^ 32 := hl ▸ load_lt _ _ _
  rw [hw] at h1 htlb
  split_ifs at h1 htlb with h0 h2 h3 h4
  · cases h1
  · have hs : tlb_search m2.tlb ((va >>> 8) &&& 0xFF) ((va >>> 16) &&& 0xFFFF) = some l := by
      rw [htlb]
      simp only [tlb_search_tlb_add, Nat.mod_eq_of_lt hlt]
    refine ⟨⟨l, hs⟩, ?_⟩
    rw [mmu_resolve_hit m2 va use l hs hlt, hsuper, if_neg h4]
    exact h1
  · cases h1
  · cases h1
  · cases h1

/-- Instance of `hit_miss_equivalence`: a WRITE to `0x01020340` on `demoMachine`
misses, succeeds with `0x40`, and succeeds again from the cache it leaves. -/
theorem hit_miss_equivalence_witness :
    tlb_search demoMachine.tlb ((0x01020340 >>> 8) &&& 0xFF) ((0x01020340 >>> 16) &&& 0xFFFF)
      = none ∧
    (mmu_resolve demoMachine 0x01020340 .WRITE).1 = ⟨.SUCCESS, 0x40⟩ ∧
    (mmu_resolve (mmu_resolve demoMachine 0x01020340 .WRITE).2 0x01020340 .WRITE).1
      = ⟨.SUCCESS, 0x40⟩ :=
  ⟨by decide, by decide,
    (hit_miss_equivalence demoMachine (mmu_resolve demoMachine 0x01020340 .WRITE).2
      0x01020340 .WRITE 0x40 (by decide) (by decide) rfl rfl).2⟩

/-! ## Legacy mode enforces no permissions -/

/-- Result of `mmu_legacy` without the machine. -/
theorem mmu_legacy_fst (m : Machine) (va : Nat) :
    (mmu_legacy m va).1 =
      if check_pte_valid (load m.mem m.CR3 (vpn va)) ≠ 0 then
        ⟨.SUCCESS, makeAddress (load m.mem m.CR3 (vpn va)) va⟩
      else ⟨.PAGEFAULT, vpn va⟩ := by
  simp only [mmu_legacy]
  split_ifs <;> rfl

/-- C7: for a 16-bit address whose root-table entry has bit 31 set,
`mmu_legacy` returns SUCCESS whatever the permission bits 3..0 and whatever
`SUPER`; it returns neither PROTFAULT nor NOTIMPLEMENTED on any input; and its
result is the same on two machines whose entries agree above bit 3, and the
same after `SUPER` is changed. -/
theorem legacy_no_enforcement (m m2 : Machine) (va : Nat) (s : Int) (hva : va < 2 ^ 16) :
    ((load m.mem m.CR3 (va >>> 8)).testBit 31 = true →
      (mmu_legacy m va).1.status = .SUCCESS) ∧
    ((mmu_legacy m va).1.status ≠ .PROTFAULT ∧
      (mmu_legacy m va).1.status ≠ .NOTIMPLEMENTED) ∧
    (load m.mem m.CR3 (va >>> 8) >>> 4 = load m2.mem m2.CR3 (va >>> 8) >>> 4 →
      (mmu_legacy m va).1 = (mmu_legacy m2 va).1) ∧
    (mmu_legacy { m with SUPER := s } va).1 = (mmu_legacy m va).1 := by
  have hv : vpn va = va >>> 8 := vpn_of_lt va (by omega)
  refine ⟨fun h => ?_, ⟨?_, ?_⟩, fun h => ?_, ?_⟩
  · rw [mmu_legacy_fst, hv, if_pos ((check_pte_valid_ne_zero _).2 h)]
  · rw [mmu_legacy_fst]; split_ifs <;> simp
  · rw [mmu_legacy_fst]; split_ifs <;> simp
  · have hb : ∀ x : Nat, x >>> 31 = (x >>> 4) >>> 27 := fun x => by
      rw [← Nat.shiftRight_add]
    rw [mmu_legacy_fst, mmu_legacy_fst]
    unfold check_pte_valid makeAddress
    simp only [hv, hb, h]
  · rw [mmu_legacy_fst, mmu_legacy_fst]

/-- Instance of `legacy_no_enforcement`: entry `0x8000001F` (all four
permission bits set, privilege included) at legacy address `0x0440` of the
user-mode machine `demoLegacy`. -/
theorem legacy_no_enforcement_witness :
    (0x0440 : Nat) < 2 ^ 16 ∧
    load demoLegacy.mem demoLegacy.CR3 (0x0440 >>> 8) = 0x8000001F ∧
    (mmu_legacy demoLegacy 0x0440).1.status = .SUCCESS :=
  ⟨by decide, by decide,
    (legacy_no_enforcement demoLegacy demoLegacy 0x0440 1 (by decide)).1 (by decide)⟩

/-! ## Properties of the permission gate -/

/-- C8: while `SUPER` is false, an entry `e` with bit 3 set that `mmu_resolve`
reaches, by a cache hit or by a walk through valid pointers to a valid leaf,
gives PROTFAULT carrying `e` for every access and every value of bits 2..0,
and the machine is unchanged. -/
theorem gate_ordering (m : Machine) (va : Nat) (use : access_t) (e : Nat)
    (hsuper : m.SUPER = 0) (hp : e.testBit 3 = true) :
    (tlb_search m.tlb ((va >>> 8) &&& 0xFF) ((va >>> 16) &&& 0xFFFF) = some e →
      e < 2 ^ 32 → mmu_resolve m va use = (⟨.PROTFAULT, e⟩, m)) ∧
    (∀ d t,
      tlb_search m.tlb ((va >>> 8) &&& 0xFF) ((va >>> 16) &&& 0xFFFF) = none →
      d = load m.mem m.CR3 ((va >>> 24) &&& 0xFF) →
      t = load m.mem (d &&& 0xFFFFFFF0) ((va >>> 16) &&& 0xFF) →
      e = load m.mem (t &&& 0xFFFFFFF0) ((va >>> 8) &&& 0xFF) →
      d.testBit 0 = true → t.testBit 0 = true → e.testBit 31 = true →
      mmu_resolve m va use = (⟨.PROTFAULT, e⟩, m)) := by
  have hg : call_faults m.SUPER use e ≠ 0 :=
    (call_faults_ne_zero m.SUPER use e).2 (Or.inl ⟨hsuper, hp⟩)
  refine ⟨fun hhit he => ?_, fun d t hmiss hd ht hl hdv htv hev => ?_⟩
  · rw [mmu_resolve_hit m va use e hhit he, if_pos hg]
  · rw [mmu_resolve_walk m va use d t e hmiss hd ht hl]
    simp only [hdv, htv, hev, if_true]
    rw [if_pos hg]

/-- Instance of `gate_ordering`: entry `0x8000001F` (privileged, readable,
writable, executable) for address `0x01020440`, cached on `demoCached` and
walked on `demoMachine`, both in user mode, with an EXECUTE access. -/
theorem gate_ordering_witness :
    demoCached.SUPER = 0 ∧ Nat.testBit 0x8000001F 3 = true ∧
    mmu_resolve demoCached 0x01020440 .EXECUTE = (⟨.PROTFAULT, 0x8000001F⟩, demoCached) ∧
    mmu_resolve demoMachine 0x01020440 .EXECUTE = (⟨.PROTFAULT, 0x8000001F⟩, demoMachine) :=
  ⟨by decide, by decide,
    (gate_ordering demoCached 0x01020440 .EXECUTE 0x8000001F (by decide) (by decide)).1
      (by decide) (by decide),
    (gate_ordering demoMachine 0x01020440 .EXECUTE 0x8000001F (by decide) (by decide)).2
      0x2001 0x3001 (by decide) (by decide) (by decide) (by decide) (by decide) (by decide)
      (by decide)⟩

/-- C9: with sufficient privilege (`SUPER` true, or bit 3 of `e` clear), a READ
of an address whose entry `e` is reached by a cache hit, or by a walk through
valid pointers to a leaf with bit 31 set, returns SUCCESS with the translated
address, whatever bits 2..0 of `e` are. -/
theorem read_never_blocked (m : Machine) (va : Nat) (e : Nat)
    (hpriv : m.SUPER ≠ 0 ∨ e.testBit 3 = false) :
    (tlb_search m.tlb ((va >>> 8) &&& 0xFF) ((va >>> 16) &&& 0xFFFF) = some e →
      e < 2 ^ 32 →
      (mmu_resolve m va .READ).1 =
        ⟨.SUCCESS, (((e >>> 4) &&& 0xFFFFFF) <<< 8) ||| (va &&& 0xFF)⟩) ∧
    (∀ d t,
      tlb_search m.tlb ((va >>> 8) &&& 0xFF) ((va >>> 16) &&& 0xFFFF) = none →
      d = load m.mem m.CR3 ((va >>> 24) &&& 0xFF) →
      t = load m.mem (d &&& 0xFFFFFFF0) ((va >>> 16) &&& 0xFF) →
      e = load m.mem (t &&& 0xFFFFFFF0) ((va >>> 8) &&& 0xFF) →
      d.testBit 0 = true → t.testBit 0 = true → e.testBit 31 = true →
      (mmu_resolve m va .READ).1 =
        ⟨.SUCCESS, (((e >>> 4) &&& 0xFFFFFF) <<< 8) ||| (va &&& 0xFF)⟩) := by
  have hg : ¬ call_faults m.SUPER .READ e ≠ 0 := by
    rw [call_faults_ne_zero]
    rintro (⟨h0, h3⟩ | ⟨h, _⟩ | ⟨h, _⟩)
    · rcases hpriv with hs | hb
      · exact hs h0
      · rw [hb] at h3; cases h3
    · cases h
    · cases h
  refine ⟨fun hhit he => ?_, fun d t hmiss hd ht hl hdv htv hev => ?_⟩
  · rw [mmu_resolve_hit m va .READ e hhit he, if_neg hg, makeAddress_eq]
  · rw [mmu_resolve_walk m va .READ d t e hmiss hd ht hl]
    simp only [hdv, htv, hev, if_true]
    rw [if_neg hg, makeAddress_eq]

/-- Instance of `read_never_blocked`: entry `0x80000020` (no read, write or
execute bit) for address `0x01020540`, cached on `demoCached` and walked on
`demoMachine`; and the privileged entry `0x8000001F` read in supervisor mode. -/
theorem read_never_blocked_witness :
    (demoCached.SUPER ≠ 0 ∨ Nat.testBit 0x80000020 3 = false) ∧
    (mmu_resolve demoCached 0x01020540 .READ).1 =
      ⟨.SUCCESS, (((0x80000020 >>> 4) &&& 0xFFFFFF) <<< 8) ||| (0x01020540 &&& 0xFF)⟩ ∧
    (mmu_resolve demoMachine 0x01020540 .READ).1 =
      ⟨.SUCCESS, (((0x80000020 >>> 4) &&& 0xFFFFFF) <<< 8) ||| (0x01020540 &&& 0xFF)⟩ ∧
    (mmu_resolve demoSuper 0x01020440 .READ).1 =
      ⟨.SUCCESS, (((0x8000001F >>> 4) &&& 0xFFFFFF) <<< 8) ||| (0x01020440 &&& 0xFF)⟩ :=
  ⟨by decide,
    (read_never_blocked demoCached 0x01020540 0x80000020 (by decide)).1
      (by decide) (by decide),
    (read_never_blocked demoMachine 0x01020540 0x80000020 (by decide)).2
      0x2001 0x3001 (by decide) (by decide) (by decide) (by decide) (by decide) (by decide)
      (by decide),
    (read_never_blocked demoSuper 0x01020440 0x8000001F (by decide)).2
      0x2001 0x3001 (by decide) (by decide) (by decide) (by decide) (by decide) (by decide)
      (by decide)⟩

/-! ## The NOTIMPLEMENTED outcome -/

/-- Status of `mmu_resolve` on a cache hit, for any cached value. -/
theorem mmu_resolve_hit_status (m : Machine) (va : Nat) (use : access_t) (e : Nat)
    (hhit : tlb_search m.tlb ((va >>> 8) &&& 0xFF) ((va >>> 16) &&& 0xFFFF) = some e) :
    (mmu_resolve m va use).1.status = .PROTFAULT ∨
      (mmu_resolve m va use).1.status = .SUCCESS := by
  unfold mmu_resolve
  simp only [tlbIndex_vpn, tlbTag_vpn, hhit, callProtFault, callSuccess]
  split_ifs
  · exact Or.inl rfl
  · exact Or.inr rfl

/-- C10: `mmu_resolve` returns status NOTIMPLEMENTED exactly when the probe
misses and bit 0 of the directory entry or bit 0 of the table entry is clear;
on a hit, and on a walk with both pointers valid, the status is SUCCESS,
PAGEFAULT or PROTFAULT; `mmu_legacy` never returns NOTIMPLEMENTED. -/
theorem notimplemented_iff (m : Machine) (va : Nat) (use : access_t) (d t : Nat)
    (hd : d = load m.mem m.CR3 ((va >>> 24) &&& 0xFF))
    (ht : t = load m.mem (d &&& 0xFFFFFFF0) ((va >>> 16) &&& 0xFF)) :
    ((mmu_resolve m va use).1.status = .NOTIMPLEMENTED ↔
      (tlb_search m.tlb ((va >>> 8) &&& 0xFF) ((va >>> 16) &&& 0xFFFF) = none ∧
        (d.testBit 0 = false ∨ t.testBit 0 = false))) ∧
    ((∃ e, tlb_search m.tlb ((va >>> 8) &&& 0xFF) ((va >>> 16) &&& 0xFFFF) = some e) →
      (mmu_resolve m va use).1.status = .SUCCESS ∨
      (mmu_resolve m va use).1.status = .PAGEFAULT ∨
      (mmu_resolve m va use).1.status = .PROTFAULT) ∧
    (tlb_search m.tlb ((va >>> 8) &&& 0xFF) ((va >>> 16) &&& 0xFFFF) = none →
      d.testBit 0 = true → t.testBit 0 = true →
      (mmu_resolve m va use).1.status = .SUCCESS ∨
      (mmu_resolve m va use).1.status = .PAGEFAULT ∨
      (mmu_resolve m va use).1.status = .PROTFAULT) ∧
    (∀ va16, (mmu_legacy m va16).1.status ≠ .NOTIMPLEMENTED) := by
  refine ⟨?_, ?_, ?_, ?_⟩
  · cases hs : tlb_search m.tlb ((va >>> 8) &&& 0xFF) ((va >>> 16) &&& 0xFFFF) with
    | some e =>
      rcases mmu_resolve_hit_status m va use e hs with h | h <;> simp [h]
    | none =>
      rw [mmu_resolve_walk m va use d t _ hs hd ht rfl]
      by_cases h0 : d.testBit 0 = true
      · by_cases h1 : t.testBit 0 = true
        · simp only [h0, h1, if_true]
          split_ifs <;> simp
        · simp [h0, h1]
      · simp [h0]
  · rintro ⟨e, hs⟩
    rcases mmu_resolve_hit_status m va use e hs with h | h <;> simp [h]
  · intro hs h0 h1
    rw [mmu_resolve_walk m va use d t _ hs hd ht rfl]
    simp only [h0, h1, if_true]
    split_ifs <;> simp
  · intro va16
    rw [mmu_legacy_fst]
    split_ifs <;> simp

/-- Instance of `notimplemented_iff`: address `0x02020340` on `demoMachine`
misses the cache and meets the invalid root entry `0x2000`. -/
theorem notimplemented_iff_witness :
    0x2000 = load demoMachine.mem demoMachine.CR3 ((0x02020340 >>> 24) &&& 0xFF) ∧
    0x3001 = load demoMachine.mem (0x2000 &&& 0xFFFFFFF0) ((0x02020340 >>> 16) &&& 0xFF) ∧
    (mmu_resolve demoMachine 0x02020340 .WRITE).1.status = .NOTIMPLEMENTED :=
  ⟨by decide, by decide,
    (notimplemented_iff demoMachine 0x02020340 .WRITE 0x2000 0x3001
      (by decide) (by decide)).1.2 ⟨by decide, Or.inl (by decide)⟩⟩

/-! ## Effects on the cache -/

/-- The machine left by `mmu_resolve` is the old one with the recorded
`tlb_add` calls performed on its cache. -/
theorem mmu_resolve_snd (m : Machine) (va : Nat) (use : access_t) :
    (mmu_resolve m va use).2 =
      { m with tlb := replayAdds m.tlb (mmu_resolve_adds m va use) } := by
  unfold mmu_resolve mmu_resolve_adds replayAdds
  cases hs : tlb_search m.tlb (tlbIndex (vpn va)) (tlbTag (vpn va)) with
  | some e =>
    simp only [hs]
    split_ifs <;> rfl
  | none =>
    simp only [hs]
    split_ifs <;> rfl

theorem mmu_resolve_adds_hit (m : Machine) (va : Nat) (use : access_t) (e : Nat)
    (hhit : tlb_search m.tlb ((va >>> 8) &&& 0xFF) ((va >>> 16) &&& 0xFFFF) = some e)
    (he : e < 2 ^ 32) :
    mmu_resolve_adds m va use =
      if call_faults m.SUPER use e ≠ 0 then []
      else [((va >>> 8) &&& 0xFF, (va >>> 16) &&& 0xFFFF, e)] := by
  unfold mmu_resolve_adds
  simp only [tlbIndex_vpn, tlbTag_vpn, hhit, Nat.mod_eq_of_lt he]

theorem mmu_resolve_adds_walk (m : Machine) (va : Nat) (use : access_t) (d t l : Nat)
    (hmiss : tlb_search m.tlb ((va >>> 8) &&& 0xFF) ((va >>> 16) &&& 0xFFFF) = none)
    (hd : d = load m.mem m.CR3 ((va >>> 24) &&& 0xFF))
    (ht : t = load m.mem (d &&& 0xFFFFFFF0) ((va >>> 16) &&& 0xFF))
    (hl : l = load m.mem (t &&& 0xFFFFFFF0) ((va >>> 8) &&& 0xFF)) :
    mmu_resolve_adds m va use =
      if d.testBit 0 = true then
        if t.testBit 0 = true then
          if l.testBit 31 = true then
            if call_faults m.SUPER use l ≠ 0 then []
            else [((va >>> 8) &&& 0xFF, (va >>> 16) &&& 0xFFFF, l)]
          else []
        else []
      else [] := by
  have hdlt : d < 2 ^ 32 := hd ▸ load_lt _ _ _
  have htlt : t < 2 ^ 32 := ht ▸ load_lt _ _ _
  rw [← get_addr_eq_and d hdlt] at ht
  rw [← get_addr_eq_and t htlt] at hl
  unfold mmu_resolve_adds
  simp only [tlbIndex_vpn, tlbTag_vpn, hmiss]
  rw [show get_dirI va = (va >>> 24) &&& 0xFF from rfl,
    show get_ptIndex va = (va >>> 16) &&& 0xFF from rfl,
    show get_pteIndex va = (va >>> 8) &&& 0xFF from rfl, ← hd, ← ht, ← hl]
  simp only [valid_dir_ne_zero, check_pte_valid_ne_zero]
  unfold call_faults
  split_ifs <;> first | rfl | (exfalso; simp_all)

/-- Calls are recorded only on the branches that return SUCCESS. -/
theorem mmu_resolve_adds_of_not_success (m : Machine) (va : Nat) (use : access_t)
    (h : (mmu_resolve m va use).1.status ≠ .SUCCESS) : mmu_resolve_adds m va use = [] := by
  revert h
  unfold mmu_resolve mmu_resolve_adds
  cases hs : tlb_search m.tlb (tlbIndex (vpn va)) (tlbTag (vpn va)) with
  | some e =>
    simp only [hs, callSuccess, callProtFault]
    split_ifs <;> simp
  | none =>
    simp only [hs, callSuccess, callProtFault, callPageFault]
    split_ifs <;> simp

theorem tlb_add_other (t : TLBState) (index tag pte i : Nat) (h : i ≠ index % 256) :
    (tlb_add t index tag pte).1 i = t i := by
  simp [tlb_add, h]

theorem index_field_lt (va : Nat) : (va >>> 8) &&& 0xFF < 256 := by
  rw [and_ff]; omega

theorem tag_field_lt (va : Nat) : (va >>> 16) &&& 0xFFFF < 65536 := by
  rw [and_ffff]; omega

/-- Slots other than the probed one are the same before and after a call. -/
theorem mmu_resolve_tlb_other (m : Machine) (va : Nat) (use : access_t) (i : Nat)
    (hi : i ≠ (va >>> 8) &&& 0xFF) : (mmu_resolve m va use).2.tlb i = m.tlb i := by
  have hi2 : i ≠ ((va >>> 8) &&& 0xFF) % 256 := by
    rw [Nat.mod_eq_of_lt (index_field_lt va)]; exact hi
  unfold mmu_resolve
  cases hs : tlb_search m.tlb ((va >>> 8) &&& 0xFF) ((va >>> 16) &&& 0xFFFF) with
  | some e =>
    simp only [tlbIndex_vpn, tlbTag_vpn, hs]
    split_ifs
    · rfl
    · exact tlb_add_other _ _ _ _ _ hi2
  | none =>
    simp only [tlbIndex_vpn, tlbTag_vpn, hs]
    split_ifs <;> first | rfl | exact tlb_add_other _ _ _ _ _ hi2

/-- C11: the cache is touched only on success.  When `mmu_resolve` returns
PROTFAULT, PAGEFAULT or NOTIMPLEMENTED it makes no `tlb_add` call and the cache
is as before; when it returns SUCCESS it makes exactly one `tlb_add` call, at
index `(va >> 8) & 0xFF` with tag `(va >> 16) & 0xFFFF` and the gated leaf
entry, and every other slot is as before.  `mmu_legacy` leaves the machine as
it was and its result does not depend on the cache. -/
theorem tlb_touched_only_on_success (m : Machine) (va : Nat) (use : access_t) :
    (mmu_resolve m va use).2.tlb = replayAdds m.tlb (mmu_resolve_adds m va use) ∧
    ((mmu_resolve m va use).1.status ≠ .SUCCESS →
      mmu_resolve_adds m va use = [] ∧ (mmu_resolve m va use).2.tlb = m.tlb) ∧
    ((mmu_resolve m va use).1.status = .SUCCESS →
      (∀ e, tlb_search m.tlb ((va >>> 8) &&& 0xFF) ((va >>> 16) &&& 0xFFFF) = some e →
        e < 2 ^ 32 →
        mmu_resolve_adds m va use = [((va >>> 8) &&& 0xFF, (va >>> 16) &&& 0xFFFF, e)] ∧
        (mmu_resolve m va use).2.tlb =
          (tlb_add m.tlb ((va >>> 8) &&& 0xFF) ((va >>> 16) &&& 0xFFFF) e).1) ∧
      (∀ d t l, tlb_search m.tlb ((va >>> 8) &&& 0xFF) ((va >>> 16) &&& 0xFFFF) = none →
        d = load m.mem m.CR3 ((va >>> 24) &&& 0xFF) →
        t = load m.mem (d &&& 0xFFFFFFF0) ((va >>> 16) &&& 0xFF) →
        l = load m.mem (t &&& 0xFFFFFFF0) ((va >>> 8) &&& 0xFF) →
        mmu_resolve_adds m va use = [((va >>> 8) &&& 0xFF, (va >>> 16) &&& 0xFFFF, l)] ∧
        (mmu_resolve m va use).2.tlb =
          (tlb_add m.tlb ((va >>> 8) &&& 0xFF) ((va >>> 16) &&& 0xFFFF) l).1) ∧
      (∀ i, i ≠ (va >>> 8) &&& 0xFF → (mmu_resolve m va use).2.tlb i = m.tlb i)) ∧
    (∀ va16, (mmu_legacy m va16).2 = m) ∧
    (∀ va16 t, (mmu_legacy { m with tlb := t } va16).1 = (mmu_legacy m va16).1) := by
  have hsnd := mmu_resolve_snd m va use
  refine ⟨by rw [hsnd], fun hne => ?_, fun hok => ⟨fun e hhit he => ?_,
    fun d t l hmiss hd ht hl => ?_, fun i hi => mmu_resolve_tlb_other m va use i hi⟩,
    fun va16 => ?_, fun va16 t => ?_⟩
  · have ha := mmu_resolve_adds_of_not_success m va use hne
    rw [hsnd, ha]
    exact ⟨rfl, rfl⟩
  · have hr := mmu_resolve_hit m va use e hhit he
    have ha := mmu_resolve_adds_hit m va use e hhit he
    by_cases hg : call_faults m.SUPER use e ≠ 0
    · rw [hr, if_pos hg] at hok
      cases hok
    · rw [if_neg hg] at ha
      rw [hsnd, ha]
      exact ⟨rfl, rfl⟩
  · have hr := mmu_resolve_walk m va use d t l hmiss hd ht hl
    have ha := mmu_resolve_adds_walk m va use d t l hmiss hd ht hl
    rw [hr] at hok
    rw [hsnd, ha]
    split_ifs at hok ⊢
    exact ⟨rfl, rfl⟩
  · simp only [mmu_legacy]
    split_ifs <;> rfl
  · rw [mmu_legacy_fst, mmu_legacy_fst]

/-- Instance of `tlb_touched_only_on_success`: on `demoMachine` the refused
EXECUTE of `0x01020340` makes no call and leaves the cache as it was; the
successful WRITE makes the single call `(3, 0x0102, 0x80000006)`. -/
theorem tlb_touched_only_on_success_witness :
    (mmu_resolve demoMachine 0x01020340 .EXECUTE).1.status ≠ .SUCCESS ∧
    (mmu_resolve_adds demoMachine 0x01020340 .EXECUTE = [] ∧
      (mmu_resolve demoMachine 0x01020340 .EXECUTE).2.tlb = demoMachine.tlb) ∧
    (mmu_resolve demoMachine 0x01020340 .WRITE).1.status = .SUCCESS ∧
    (mmu_resolve_adds demoMachine 0x01020340 .WRITE
        = [((0x01020340 >>> 8) &&& 0xFF, (0x01020340 >>> 16) &&& 0xFFFF, 0x80000006)] ∧
      (mmu_resolve demoMachine 0x01020340 .WRITE).2.tlb =
        (tlb_add demoMachine.tlb ((0x01020340 >>> 8) &&& 0xFF)
          ((0x01020340 >>> 16) &&& 0xFFFF) 0x80000006).1) :=
  ⟨by decide,
    (tlb_touched_only_on_success demoMachine 0x01020340 .EXECUTE).2.1 (by decide),
    by decide,
    ((tlb_touched_only_on_success demoMachine 0x01020340 .WRITE).2.2.1 (by decide)).2.1
      0x2001 0x3001 0x80000006 (by decide) (by decide) (by decide) (by decide)⟩

/-! ## Concrete scenario -/

/-- C12: in every memory where root entry `0x01` and the directory entry
`0x02` it leads to are valid pointers and the page table reached holds
`0x80000006` at index `0x03`, with the cache missing for `0x01020340` and any
`SUPER`: a WRITE to `0x01020340` returns SUCCESS with `0x00000040`, and an
EXECUTE returns PROTFAULT carrying `0x80000006`, both on the cache as given and
on the cache left by the WRITE. -/
theorem concrete_scenario (m : Machine) (d t : Nat)
    (hmiss : tlb_search m.tlb ((0x01020340 >>> 8) &&& 0xFF) ((0x01020340 >>> 16) &&& 0xFFFF)
      = none)
    (hd : d = load m.mem m.CR3 0x01) (hdv : d.testBit 0 = true)
    (ht : t = load m.mem (d &&& 0xFFFFFFF0) 0x02) (htv : t.testBit 0 = true)
    (hl : load m.mem (t &&& 0xFFFFFFF0) 0x03 = 0x80000006) :
    (mmu_resolve m 0x01020340 .WRITE).1 = ⟨.SUCCESS, 0x00000040⟩ ∧
    (mmu_resolve m 0x01020340 .EXECUTE).1 = ⟨.PROTFAULT, 0x80000006⟩ ∧
    (mmu_resolve (mmu_resolve m 0x01020340 .WRITE).2 0x01020340 .EXECUTE).1
      = ⟨.PROTFAULT, 0x80000006⟩ := by
  have hw : ∀ S : Int, ¬ call_faults S .WRITE 0x80000006 ≠ 0 := fun S => by
    rw [call_faults_ne_zero]
    rintro (⟨_, h⟩ | ⟨h, _⟩ | ⟨_, _, h⟩) <;> revert h <;> decide
  have hx : ∀ S : Int, call_faults S .EXECUTE 0x80000006 ≠ 0 := fun S =>
    (call_faults_ne_zero S .EXECUTE 0x80000006).2 (Or.inr (Or.inl ⟨rfl, by decide⟩))
  have walk := fun use => mmu_resolve_walk m 0x01020340 use d t 0x80000006 hmiss hd ht hl.symm
  simp only [hdv, htv, show Nat.testBit 0x80000006 31 = true by decide, if_true] at walk
  have hW := walk .WRITE
  have hX := walk .EXECUTE
  rw [if_neg (hw _)] at hW
  rw [if_pos (hx _)] at hX
  refine ⟨by rw [hW]; rfl, by rw [hX], ?_⟩
  rw [hW]
  have hs := tlb_search_tlb_add m.tlb ((0x01020340 >>> 8) &&& 0xFF)
    ((0x01020340 >>> 16) &&& 0xFFFF) 0x80000006
  rw [mmu_resolve_hit _ 0x01020340 .EXECUTE 0x80000006 hs (by decide), if_pos (hx _)]

/-- Instance of `concrete_scenario` on `demoMachine`, whose memory holds the
three entries. -/
theorem concrete_scenario_witness :
    tlb_search demoMachine.tlb ((0x01020340 >>> 8) &&& 0xFF) ((0x01020340 >>> 16) &&& 0xFFFF)
      = none ∧
    0x2001 = load demoMachine.mem demoMachine.CR3 0x01 ∧ Nat.testBit 0x2001 0 = true ∧
    0x3001 = load demoMachine.mem (0x2001 &&& 0xFFFFFFF0) 0x02 ∧ Nat.testBit 0x3001 0 = true ∧
    load demoMachine.mem (0x3001 &&& 0xFFFFFFF0) 0x03 = 0x80000006 ∧
    (mmu_resolve demoMachine 0x01020340 .WRITE).1 = ⟨.SUCCESS, 0x00000040⟩ ∧
    (mmu_resolve demoMachine 0x01020340 .EXECUTE).1 = ⟨.PROTFAULT, 0x80000006⟩ ∧
    (mmu_resolve (mmu_resolve demoMachine 0x01020340 .WRITE).2 0x01020340 .EXECUTE).1
      = ⟨.PROTFAULT, 0x80000006⟩ :=
  ⟨by decide, by decide, by decide, by decide, by decide, by decide,
    concrete_scenario demoMachine 0x2001 0x3001 (by decide) (by decide) (by decide)
      (by decide) (by decide) (by decide)⟩

/-! ## One gate for both paths -/

/-- C13: for every entry `e`, access and `SUPER`, `call_faults` returns nonzero
exactly when the inline check of the walk path (`walk_gate`) selects PROTFAULT;
the walk path returns PROTFAULT exactly on that verdict for a leaf it reaches,
and the hit path returns PROTFAULT exactly on the verdict of `call_faults`, so
the same entry gets the same outcome on both paths. -/
theorem gate_same_on_both_paths (S : Int) (use : access_t) (e : Nat) :
    (call_faults S use e ≠ 0 ↔ walk_gate S use e = true) ∧
    (∀ m va d t, m.SUPER = S →
      tlb_search m.tlb ((va >>> 8) &&& 0xFF) ((va >>> 16) &&& 0xFFFF) = none →
      d = load m.mem m.CR3 ((va >>> 24) &&& 0xFF) →
      t = load m.mem (d &&& 0xFFFFFFF0) ((va >>> 16) &&& 0xFF) →
      e = load m.mem (t &&& 0xFFFFFFF0) ((va >>> 8) &&& 0xFF) →
      d.testBit 0 = true → t.testBit 0 = true → e.testBit 31 = true →
      (mmu_resolve m va use).1 =
        if walk_gate S use e = true then ⟨.PROTFAULT, e⟩
        else ⟨.SUCCESS, makeAddress e va⟩) ∧
    (∀ m va, m.SUPER = S →
      tlb_search m.tlb ((va >>> 8) &&& 0xFF) ((va >>> 16) &&& 0xFFFF) = some e →
      e < 2 ^ 32 →
      (mmu_resolve m va use).1 =
        if call_faults S use e ≠ 0 then ⟨.PROTFAULT, e⟩
        else ⟨.SUCCESS, makeAddress e va⟩) := by
  have hiff : call_faults S use e ≠ 0 ↔ walk_gate S use e = true := by
    unfold call_faults walk_gate
    split_ifs <;> simp
  refine ⟨hiff, fun m va d t hS hmiss hd ht hl hdv htv hev => ?_, fun m va hS hhit he => ?_⟩
  · rw [mmu_resolve_walk m va use d t e hmiss hd ht hl, hS]
    simp only [hdv, htv, hev, if_true]
    by_cases hg : call_faults S use e ≠ 0
    · rw [if_pos hg, if_pos (hiff.1 hg)]
    · rw [if_neg hg, if_neg (fun h => hg (hiff.2 h))]
  · rw [mmu_resolve_hit m va use e hhit he, hS]
    split_ifs <;> rfl

/-- Instance of `gate_same_on_both_paths`: entry `0x80000006` with an EXECUTE
in user mode is refused by both checks, walked on `demoMachine` and cached on
`demoCached`. -/
theorem gate_same_on_both_paths_witness :
    (call_faults 0 .EXECUTE 0x80000006 ≠ 0 ↔ walk_gate 0 .EXECUTE 0x80000006 = true) ∧
    walk_gate 0 .EXECUTE 0x80000006 = true ∧
    (mmu_resolve demoMachine 0x01020340 .EXECUTE).1 =
      (if walk_gate 0 .EXECUTE 0x80000006 = true then ⟨.PROTFAULT, 0x80000006⟩
        else ⟨.SUCCESS, makeAddress 0x80000006 0x01020340⟩) ∧
    (mmu_resolve demoCached 0x01020340 .EXECUTE).1 =
      (if call_faults 0 .EXECUTE 0x80000006 ≠ 0 then ⟨.PROTFAULT, 0x80000006⟩
        else ⟨.SUCCESS, makeAddress 0x80000006 0x01020340⟩) :=
  ⟨(gate_same_on_both_paths 0 .EXECUTE 0x80000006).1, by decide,
    (gate_same_on_both_paths 0 .EXECUTE 0x80000006).2.1 demoMachine 0x01020340 0x2001 0x3001
      (by decide) (by decide) (by decide) (by decide) (by decide) (by decide) (by decide)
      (by decide),
    (gate_same_on_both_paths 0 .EXECUTE 0x80000006).2.2 demoCached 0x01020340
      (by decide) (by decide) (by decide)⟩

/-! ## Cache coherence -/

/-- Tag and index of an address put together give back its page number. -/
theorem page_join (va : Nat) :
    (((va >>> 16) &&& 0xFFFF) <<< 8) ||| ((va >>> 8) &&& 0xFF) = vpn va := by
  rw [shl_or_eq_add _ _ 8 (by rw [and_ff]; omega)]
  unfold vpn
  rw [and_ff, and_ffff, and_ffffff, shr_eq_div, shr_eq_div]
  omega

theorem get_dirI_vpn (va : Nat) : get_dirI (vpn va <<< 8) = (va >>> 24) &&& 0xFF := by
  unfold get_dirI vpn
  rw [and_ff, and_ff, and_ffffff, Nat.shiftLeft_eq, shr_eq_div, shr_eq_div, shr_eq_div]
  omega

theorem get_ptIndex_vpn (va : Nat) : get_ptIndex (vpn va <<< 8) = (va >>> 16) &&& 0xFF := by
  unfold get_ptIndex vpn
  rw [and_ff, and_ff, and_ffffff, Nat.shiftLeft_eq, shr_eq_div, shr_eq_div, shr_eq_div]
  omega

theorem get_pteIndex_vpn (va : Nat) : get_pteIndex (vpn va <<< 8) = (va >>> 8) &&& 0xFF := by
  unfold get_pteIndex vpn
  rw [and_ff, and_ff, and_ffffff, Nat.shiftLeft_eq, shr_eq_div, shr_eq_div]
  omega

/-- The walk for the page of `va`, spelled with the fields of `va`. -/
theorem walksTo_vpn (m : Machine) (va e d t l : Nat)
    (hd : d = load m.mem m.CR3 ((va >>> 24) &&& 0xFF))
    (ht : t = load m.mem (d &&& 0xFFFFFFF0) ((va >>> 16) &&& 0xFF))
    (hl : l = load m.mem (t &&& 0xFFFFFFF0) ((va >>> 8) &&& 0xFF)) :
    walksTo m (vpn va) e ↔
      (d.testBit 0 = true ∧ t.testBit 0 = true ∧ l = e ∧ e.testBit 31 = true) := by
  have hdlt : d < 2 ^ 32 := hd ▸ load_lt _ _ _
  have htlt : t < 2 ^ 32 := ht ▸ load_lt _ _ _
  rw [← get_addr_eq_and d hdlt] at ht
  rw [← get_addr_eq_and t htlt] at hl
  unfold walksTo
  rw [get_dirI_vpn, get_ptIndex_vpn, get_pteIndex_vpn, ← hd, ← ht, ← hl,
    valid_dir_ne_zero, valid_dir_ne_zero, check_pte_valid_ne_zero]

theorem tlb_search_eq_some (t : TLBState) (index tag e : Nat)
    (hi : index < 256) (hg : tag < 65536) :
    tlb_search t index tag = some e ↔
      ((t index).valid = true ∧ (t index).tag = tag ∧ (t index).entry = e) := by
  unfold tlb_search
  simp only [Nat.mod_eq_of_lt hi, Nat.mod_eq_of_lt hg]
  split_ifs with h
  · simp [h.1, h.2]
  · simp only [false_iff]
    rintro ⟨h1, h2, _⟩
    exact h ⟨h1, h2⟩

/-- In a coherent machine a hit returns the leaf entry of the walk. -/
theorem coherent_hit (m : Machine) (hc : coherent m) (va e : Nat)
    (hhit : tlb_search m.tlb ((va >>> 8) &&& 0xFF) ((va >>> 16) &&& 0xFFFF) = some e) :
    walksTo m (vpn va) e := by
  obtain ⟨hv, hg, he⟩ :=
    (tlb_search_eq_some m.tlb _ _ e (index_field_lt va) (tag_field_lt va)).1 hhit
  have h := hc _ (index_field_lt va) hv
  rw [hg, he, page_join] at h
  exact h

/-- One call of `mmu_resolve` keeps the cache coherent. -/
theorem coherent_mmu_resolve (m : Machine) (hc : coherent m) (va : Nat) (use : access_t) :
    coherent (mmu_resolve m va use).2 := by
  intro i hi hv
  have hsnd := mmu_resolve_snd m va use
  have hframe : ∀ v e, walksTo (mmu_resolve m va use).2 v e ↔ walksTo m v e := by
    intro v e; rw [hsnd]; exact Iff.rfl
  rw [hframe]
  by_cases hidx : i = (va >>> 8) &&& 0xFF
  · subst hidx
    cases hs : tlb_search m.tlb ((va >>> 8) &&& 0xFF) ((va >>> 16) &&& 0xFFFF) with
    | some e =>
      have hw := coherent_hit m hc va e hs
      have helt : e < 2 ^ 32 := by
        have := hw.2.2.1
        rw [← this]; exact load_lt _ _ _
      obtain ⟨hv0, hg0, he0⟩ :=
        (tlb_search_eq_some m.tlb _ _ e (index_field_lt va) (tag_field_lt va)).1 hs
      have hr := mmu_resolve_hit m va use e hs helt
      by_cases hg : call_faults m.SUPER use e ≠ 0
      · rw [if_pos hg] at hr
        rw [hr, hg0, he0, page_join]
        exact hw
      · rw [if_neg hg] at hr
        rw [hr]
        simp only [tlb_add, Nat.mod_eq_of_lt (index_field_lt va),
          Nat.mod_eq_of_lt (tag_field_lt va), Nat.mod_eq_of_lt helt, if_true, page_join]
        exact hw
    | none =>
      have hr := mmu_resolve_walk m va use _ _ _ hs rfl rfl rfl
      have hw := walksTo_vpn m va
        (load m.mem (load m.mem (load m.mem m.CR3 ((va >>> 24) &&& 0xFF) &&& 0xFFFFFFF0)
          ((va >>> 16) &&& 0xFF) &&& 0xFFFFFFF0) ((va >>> 8) &&& 0xFF)) _ _ _ rfl rfl rfl
      rw [hr] at hv ⊢
      split_ifs at hv ⊢ with h0 h1 h2 h3
      · exact hc _ (index_field_lt va) hv
      · simp only [tlb_add, Nat.mod_eq_of_lt (index_field_lt va),
          Nat.mod_eq_of_lt (tag_field_lt va), Nat.mod_eq_of_lt (load_lt _ _ _), if_true,
          page_join]
        exact hw.2 ⟨h0, h1, rfl, h2⟩
      · exact hc _ (index_field_lt va) hv
      · exact hc _ (index_field_lt va) hv
      · exact hc _ (index_field_lt va) hv
  · rw [mmu_resolve_tlb_other m va use i hidx] at hv ⊢
    exact hc i hi hv

theorem coherent_resolveAll (reqs : List (Nat × access_t)) :
    ∀ m : Machine, coherent m → coherent (resolveAll m reqs) := by
  induction reqs with
  | nil => intro m hc; exact hc
  | cons r rest ih =>
    intro m hc
    obtain ⟨va, use⟩ := r
    exact ih _ (coherent_mmu_resolve m hc va use)

theorem coherent_flush (m : Machine) : coherent { m with tlb := tlb_flush m.tlb } := by
  intro i _ hv
  simp [tlb_flush] at hv

theorem resolveAll_frame (reqs : List (Nat × access_t)) :
    ∀ m : Machine, (resolveAll m reqs).mem = m.mem ∧ (resolveAll m reqs).CR3 = m.CR3 ∧
      (resolveAll m reqs).SUPER = m.SUPER := by
  induction reqs with
  | nil => intro m; exact ⟨rfl, rfl, rfl⟩
  | cons r rest ih =>
    intro m
    obtain ⟨va, use⟩ := r
    have h := ih (mmu_resolve m va use).2
    have hs := mmu_resolve_snd m va use
    show (resolveAll (mmu_resolve m va use).2 rest).mem = m.mem ∧
      (resolveAll (mmu_resolve m va use).2 rest).CR3 = m.CR3 ∧
      (resolveAll (mmu_resolve m va use).2 rest).SUPER = m.SUPER
    rw [h.1, h.2.1, h.2.2, hs]
    exact ⟨rfl, rfl, rfl⟩

/-- C14: cache coherence is an invariant of `mmu_resolve`.  If every valid
slot `(i, t)` holds the valid leaf entry that the walk for page `(t << 8) | i`
reads through valid pointers, the same holds after any call, which changes
neither memory nor `CR3`; a flushed cache is coherent; hence after any
sequence of calls from a flushed cache, an entry returned by a hit is the
valid leaf entry the walk reads. -/
theorem tlb_coherence_invariant :
    (∀ m va use, coherent m →
      coherent (mmu_resolve m va use).2 ∧
      (mmu_resolve m va use).2.mem = m.mem ∧ (mmu_resolve m va use).2.CR3 = m.CR3) ∧
    (∀ m : Machine, coherent { m with tlb := tlb_flush m.tlb }) ∧
    (∀ m reqs, coherent m → coherent (resolveAll m reqs)) ∧
    (∀ (m0 : Machine) reqs va e d t l,
      tlb_search (resolveAll { m0 with tlb := tlb_flush m0.tlb } reqs).tlb
        ((va >>> 8) &&& 0xFF) ((va >>> 16) &&& 0xFFFF) = some e →
      d = load m0.mem m0.CR3 ((va >>> 24) &&& 0xFF) →
      t = load m0.mem (d &&& 0xFFFFFFF0) ((va >>> 16) &&& 0xFF) →
      l = load m0.mem (t &&& 0xFFFFFFF0) ((va >>> 8) &&& 0xFF) →
      d.testBit 0 = true ∧ t.testBit 0 = true ∧ e = l ∧ e.testBit 31 = true) := by
  refine ⟨fun m va use hc => ⟨coherent_mmu_resolve m hc va use, ?_, ?_⟩,
    coherent_flush, fun m reqs hc => coherent_resolveAll reqs m hc,
    fun m0 reqs va e d t l hhit hd ht hl => ?_⟩
  · rw [mmu_resolve_snd]
  · rw [mmu_resolve_snd]
  · have hc := coherent_resolveAll reqs _ (coherent_flush m0)
    have hf := resolveAll_frame reqs { m0 with tlb := tlb_flush m0.tlb }
    have hw := coherent_hit _ hc va e hhit
    have h := (walksTo_vpn _ va e d t l (by rw [hf.1, hf.2.1]; exact hd)
      (by rw [hf.1]; exact ht) (by rw [hf.1]; exact hl)).1 hw
    exact ⟨h.1, h.2.1, h.2.2.1.symm, h.2.2.2⟩

/-- Instance of `tlb_coherence_invariant`: from the flushed cache of
`demoMachine`, after a WRITE to `0x01020340`, the probe for that address hits
with `0x80000006`, the leaf entry the walk reads. -/
theorem tlb_coherence_invariant_witness :
    tlb_search
      (resolveAll { demoMachine with tlb := tlb_flush demoMachine.tlb }
        [(0x01020340, .WRITE)]).tlb
      ((0x01020340 >>> 8) &&& 0xFF) ((0x01020340 >>> 16) &&& 0xFFFF) = some 0x80000006 ∧
    0x2001 = load demoMachine.mem demoMachine.CR3 ((0x01020340 >>> 24) &&& 0xFF) ∧
    0x3001 = load demoMachine.mem (0x2001 &&& 0xFFFFFFF0) ((0x01020340 >>> 16) &&& 0xFF) ∧
    0x80000006 = load demoMachine.mem (0x3001 &&& 0xFFFFFFF0) ((0x01020340 >>> 8) &&& 0xFF) ∧
    (Nat.testBit 0x2001 0 = true ∧ Nat.testBit 0x3001 0 = true ∧
      0x80000006 = 0x80000006 ∧ Nat.testBit 0x80000006 31 = true) :=
  ⟨by decide, by decide, by decide, by decide,
    tlb_coherence_invariant.2.2.2 demoMachine [(0x01020340, .WRITE)] 0x01020340 0x80000006
      0x2001 0x3001 0x80000006 (by decide) (by decide) (by decide) (by decide)⟩

/-! ## A hit does not look at memory -/

/-- Result of `mmu_resolve` on a hit, for any cached value. -/
theorem mmu_resolve_hit_fst (m : Machine) (va : Nat) (use : access_t) (e : Nat)
    (hhit : tlb_search m.tlb ((va >>> 8) &&& 0xFF) ((va >>> 16) &&& 0xFFFF) = some e) :
    (mmu_resolve m va use).1 =
      if call_faults m.SUPER use (e % 2 ^ 32) ≠ 0 then ⟨.PROTFAULT, e % 2 ^ 32⟩
      else ⟨.SUCCESS, makeAddress (e % 2 ^ 32) va⟩ := by
  unfold mmu_resolve
  simp only [tlbIndex_vpn, tlbTag_vpn, hhit, callProtFault, callSuccess]
  split_ifs <;> rfl

/-- C15: on a cache hit the result of `mmu_resolve` depends neither on memory
nor on `CR3`: two machines with the same cache and the same `SUPER` return the
same status and payload; and bit 31 of the cached entry is not checked, so a
hit on an entry with bit 31 clear that passes the gate returns SUCCESS. -/
theorem hit_independent_of_memory (m1 m2 : Machine) (va : Nat) (use : access_t) (e : Nat)
    (htlb : m1.tlb = m2.tlb) (hsuper : m1.SUPER = m2.SUPER)
    (hhit : tlb_search m1.tlb ((va >>> 8) &&& 0xFF) ((va >>> 16) &&& 0xFFFF) = some e) :
    (mmu_resolve m1 va use).1 = (mmu_resolve m2 va use).1 ∧
    (e < 2 ^ 32 → e.testBit 31 = false → call_faults m1.SUPER use e = 0 →
      (mmu_resolve m1 va use).1 =
        ⟨.SUCCESS, (((e >>> 4) &&& 0xFFFFFF) <<< 8) ||| (va &&& 0xFF)⟩) := by
  refine ⟨?_, fun he _ hg => ?_⟩
  · rw [mmu_resolve_hit_fst m1 va use e hhit,
      mmu_resolve_hit_fst m2 va use e (htlb ▸ hhit), hsuper]
  · rw [mmu_resolve_hit_fst m1 va use e hhit, Nat.mod_eq_of_lt he, makeAddress_eq]
    simp [hg]

/-- Instance of `hit_independent_of_memory`: `demoStale` and `demoStaleBlank`
share a cache holding `0x00000026` (bit 31 clear) for `0x01020340`; a WRITE
returns SUCCESS with `0x240` on both, although the second has no page tables. -/
theorem hit_independent_of_memory_witness :
    demoStale.tlb = demoStaleBlank.tlb ∧ demoStale.SUPER = demoStaleBlank.SUPER ∧
    tlb_search demoStale.tlb ((0x01020340 >>> 8) &&& 0xFF) ((0x01020340 >>> 16) &&& 0xFFFF)
      = some 0x00000026 ∧
    Nat.testBit 0x00000026 31 = false ∧
    (mmu_resolve demoStale 0x01020340 .WRITE).1
      = (mmu_resolve demoStaleBlank 0x01020340 .WRITE).1 ∧
    (mmu_resolve demoStale 0x01020340 .WRITE).1 =
      ⟨.SUCCESS, (((0x00000026 >>> 4) &&& 0xFFFFFF) <<< 8) ||| (0x01020340 &&& 0xFF)⟩ :=
  ⟨rfl, rfl, by decide, by decide,
    (hit_independent_of_memory demoStale demoStaleBlank 0x01020340 .WRITE 0x00000026
      rfl rfl (by decide)).1,
    (hit_independent_of_memory demoStale demoStaleBlank 0x01020340 .WRITE 0x00000026
      rfl rfl (by decide)).2 (by decide) (by decide) (by decide)⟩

/-! ## The write rule -/

theorem read_only_eq_one (x : Nat) : read_only x = 1 ↔ x &&& 0x6 = 0x4 := by
  unfold read_only
  split_ifs with h <;> simp [h]

/-- C16: the write-allowed bit alone does not gate writes.  An entry `e` with
bit 2 clear (so in particular one with bits 2 and 1 both clear), reached by a
hit or by a walk through valid pointers to a valid leaf with sufficient
privilege, lets a WRITE succeed; `read_only` returns 1 exactly when
`(e & 0x6) = 0x4`, that is read = 1 and write = 0, and with sufficient
privilege the gate refuses a WRITE exactly in that case. -/
theorem write_bit_alone_does_not_gate (m : Machine) (va : Nat) (e : Nat)
    (hr : e.testBit 2 = false)
    (hpriv : m.SUPER ≠ 0 ∨ e.testBit 3 = false) :
    (tlb_search m.tlb ((va >>> 8) &&& 0xFF) ((va >>> 16) &&& 0xFFFF) = some e →
      e < 2 ^ 32 →
      (mmu_resolve m va .WRITE).1 =
        ⟨.SUCCESS, (((e >>> 4) &&& 0xFFFFFF) <<< 8) ||| (va &&& 0xFF)⟩) ∧
    (∀ d t,
      tlb_search m.tlb ((va >>> 8) &&& 0xFF) ((va >>> 16) &&& 0xFFFF) = none →
      d = load m.mem m.CR3 ((va >>> 24) &&& 0xFF) →
      t = load m.mem (d &&& 0xFFFFFFF0) ((va >>> 16) &&& 0xFF) →
      e = load m.mem (t &&& 0xFFFFFFF0) ((va >>> 8) &&& 0xFF) →
      d.testBit 0 = true → t.testBit 0 = true → e.testBit 31 = true →
      (mmu_resolve m va .WRITE).1 =
        ⟨.SUCCESS, (((e >>> 4) &&& 0xFFFFFF) <<< 8) ||| (va &&& 0xFF)⟩) ∧
    (∀ x, read_only x = 1 ↔ x &&& 0x6 = 0x4) ∧
    (∀ x, read_only x = 1 ↔ (x.testBit 2 = true ∧ x.testBit 1 = false)) ∧
    (∀ (S : Int) x, (S ≠ 0 ∨ x.testBit 3 = false) →
      (call_faults S .WRITE x ≠ 0 ↔ (x.testBit 2 = true ∧ x.testBit 1 = false))) := by
  have hg : ¬ call_faults m.SUPER .WRITE e ≠ 0 := by
    rw [call_faults_ne_zero]
    rintro (⟨h0, h3⟩ | ⟨h, _⟩ | ⟨_, h2, _⟩)
    · rcases hpriv with hs | hb
      · exact hs h0
      · rw [hb] at h3; cases h3
    · cases h
    · rw [hr] at h2; cases h2
  refine ⟨fun hhit he => ?_, fun d t hmiss hd ht hl hdv htv hev => ?_, read_only_eq_one,
    fun x => ?_, fun S x hp => ?_⟩
  · rw [mmu_resolve_hit m va .WRITE e hhit he, if_neg hg, makeAddress_eq]
  · rw [mmu_resolve_walk m va .WRITE d t e hmiss hd ht hl]
    simp only [hdv, htv, hev, if_true]
    rw [if_neg hg, makeAddress_eq]
  · rw [← read_only_ne_zero]
    unfold read_only
    split_ifs <;> simp
  · rw [call_faults_ne_zero]
    constructor
    · rintro (⟨h0, h3⟩ | ⟨h, _⟩ | ⟨_, h⟩)
      · rcases hp with hs | hb
        · exact absurd h0 hs
        · rw [hb] at h3; cases h3
      · cases h
      · exact h
    · intro h
      exact Or.inr (Or.inr ⟨rfl, h⟩)

/-- Instance of `write_bit_alone_does_not_gate`: entry `0x80000020` (read,
write and execute bits all clear) for `0x01020540`; a user-mode WRITE
succeeds from the cache of `demoCached` and after the walk on `demoMachine`. -/
theorem write_bit_alone_does_not_gate_witness :
    Nat.testBit 0x80000020 2 = false ∧ Nat.testBit 0x80000020 1 = false ∧
    (demoCached.SUPER ≠ 0 ∨ Nat.testBit 0x80000020 3 = false) ∧
    (mmu_resolve demoCached 0x01020540 .WRITE).1 =
      ⟨.SUCCESS, (((0x80000020 >>> 4) &&& 0xFFFFFF) <<< 8) ||| (0x01020540 &&& 0xFF)⟩ ∧
    (mmu_resolve demoMachine 0x01020540 .WRITE).1 =
      ⟨.SUCCESS, (((0x80000020 >>> 4) &&& 0xFFFFFF) <<< 8) ||| (0x01020540 &&& 0xFF)⟩ :=
  ⟨by decide, by decide, by decide,
    (write_bit_alone_does_not_gate demoCached 0x01020540 0x80000020 (by decide)
      (by decide)).1 (by decide) (by decide),
    (write_bit_alone_does_not_gate demoMachine 0x01020540 0x80000020 (by decide)
      (by decide)).2.1 0x2001 0x3001 (by decide) (by decide) (by decide) (by decide)
      (by decide) (by decide) (by decide)⟩

/-! ## Field arithmetic -/

/-- C17: the index/tag split of the cache loses nothing.  For a 32-bit `va`
with `v = vpn va = va >> 8`: `tlbIndex v < 256`, `tlbTag v < 65536`,
`(tlbTag v << 8) | tlbIndex v = v`, the narrowing to 8 and 16 bits at the calls
changes neither value, and two addresses give the same (index, tag) pair
exactly when they lie on the same page. -/
theorem tlb_split_lossless (va va2 : Nat) (hva : va < 2 ^ 32) (hva2 : va2 < 2 ^ 32) :
    vpn va = va >>> 8 ∧
    tlbIndex (vpn va) < 256 ∧ tlbTag (vpn va) < 65536 ∧
    (tlbTag (vpn va) <<< 8) ||| tlbIndex (vpn va) = vpn va ∧
    tlbIndex (vpn va) % 256 = tlbIndex (vpn va) ∧
    tlbTag (vpn va) % 65536 = tlbTag (vpn va) ∧
    ((tlbIndex (vpn va) = tlbIndex (vpn va2) ∧ tlbTag (vpn va) = tlbTag (vpn va2)) ↔
      va >>> 8 = va2 >>> 8) := by
  have hi := index_field_lt va
  have hg := tag_field_lt va
  rw [tlbIndex_vpn, tlbTag_vpn, tlbIndex_vpn, tlbTag_vpn]
  refine ⟨vpn_of_lt va hva, hi, hg, page_join va, Nat.mod_eq_of_lt hi, Nat.mod_eq_of_lt hg, ?_⟩
  rw [and_ff, and_ff, and_ffff, and_ffff, shr_eq_div, shr_eq_div, shr_eq_div, shr_eq_div]
  omega

/-- Instance of `tlb_split_lossless` at `0x01020340` and `0x010203FF`, two
addresses of the same page. -/
theorem tlb_split_lossless_witness :
    (0x01020340 : Nat) < 2 ^ 32 ∧ (0x010203FF : Nat) < 2 ^ 32 ∧
    tlbIndex (vpn 0x01020340) = 0x03 ∧ tlbTag (vpn 0x01020340) = 0x0102 ∧
    (tlbTag (vpn 0x01020340) <<< 8) ||| tlbIndex (vpn 0x01020340) = vpn 0x01020340 ∧
    ((tlbIndex (vpn 0x01020340) = tlbIndex (vpn 0x010203FF) ∧
        tlbTag (vpn 0x01020340) = tlbTag (vpn 0x010203FF)) ↔
      0x01020340 >>> 8 = 0x010203FF >>> 8) :=
  ⟨by decide, by decide, by decide, by decide,
    (tlb_split_lossless 0x01020340 0x010203FF (by decide) (by decide)).2.2.2.1,
    (tlb_split_lossless 0x01020340 0x010203FF (by decide) (by decide)).2.2.2.2.2.2⟩

theorem and_f (x : Nat) : x &&& 0xF = x % 16 :=
  Nat.and_pow_two_sub_one_eq_mod x 4

theorem get_addr_eq_mul (x : Nat) (hx : x < 2 ^ 32) : get_addr x = x / 16 * 16 := by
  rw [get_addr_eq_and x hx, and_fffffff0 x hx]

/-- C18: for a 32-bit pointer entry `x`, `get_addr x = (x >> 4) << 4` equals
`x & ~0xF`: its low four bits are zero, its bits 31..4 are those of `x`, and it
is the same for two entries that differ only in bits 3..0, so the table
address does not depend on the validity bit. -/
theorem get_addr_clears_low_bits (x y : Nat) (hx : x < 2 ^ 32) (hy : y < 2 ^ 32) :
    get_addr x = x &&& 0xFFFFFFF0 ∧
    get_addr x &&& 0xF = 0 ∧
    get_addr x >>> 4 = x >>> 4 ∧
    (∀ i, (get_addr x).testBit i = (decide (4 ≤ i) && x.testBit i)) ∧
    (x >>> 4 = y >>> 4 → get_addr x = get_addr y) := by
  have hm := get_addr_eq_mul x hx
  refine ⟨get_addr_eq_and x hx, ?_, ?_, fun i => ?_, fun h => ?_⟩
  · rw [and_f, hm]; omega
  · rw [shr_eq_div, shr_eq_div, hm]; omega
  · rw [hm, show x / 16 * 16 = (x >>> 4) <<< 4 by rw [Nat.shiftLeft_eq, shr_eq_div]; rfl]
    rw [Nat.testBit_shiftLeft, Nat.testBit_shiftRight]
    by_cases h : 4 ≤ i
    · have : 4 + (i - 4) = i := by omega
      simp [h, this]
    · simp [h]
  · rw [hm, get_addr_eq_mul y hy]
    rw [shr_eq_div, shr_eq_div] at h
    have h16 : (2 : Nat) ^ 4 = 16 := by decide
    rw [h16] at h
    rw [h]

/-- Instance of `get_addr_clears_low_bits`: the valid pointer `0x2001` and the
invalid pointer `0x2000` of `demoMem` name the same table address `0x2000`. -/
theorem get_addr_clears_low_bits_witness :
    (0x2001 : Nat) < 2 ^ 32 ∧ (0x2000 : Nat) < 2 ^ 32 ∧
    0x2001 >>> 4 = 0x2000 >>> 4 ∧
    get_addr 0x2001 = 0x2001 &&& 0xFFFFFFF0 ∧
    get_addr 0x2001 = get_addr 0x2000 :=
  ⟨by decide, by decide, by decide,
    (get_addr_clears_low_bits 0x2001 0x2000 (by decide) (by decide)).1,
    (get_addr_clears_low_bits 0x2001 0x2000 (by decide) (by decide)).2.2.2.2 (by decide)⟩

/-- C19: the decoders of the protected mode partition a 32-bit address: the
three indices and the offset are below 256, the address is
`(dir << 24) | (table << 16) | (entry << 8) | offset`, and `vpn va` is
`(dir << 16) | (table << 8) | entry`, the 24-bit value `va >> 8`. -/
theorem decoders_partition (va : Nat) (hva : va < 2 ^ 32) :
    get_dirI va < 256 ∧ get_ptIndex va < 256 ∧ get_pteIndex va < 256 ∧ va &&& 0xFF < 256 ∧
    va = (get_dirI va <<< 24) ||| (get_ptIndex va <<< 16) ||| (get_pteIndex va <<< 8)
      ||| (va &&& 0xFF) ∧
    vpn va = (get_dirI va <<< 16) ||| (get_ptIndex va <<< 8) ||| get_pteIndex va ∧
    vpn va = va >>> 8 ∧ vpn va < 2 ^ 24 := by
  have h1 : get_dirI va = va / 16777216 % 256 := by
    unfold get_dirI; rw [and_ff, shr_eq_div]; norm_num
  have h2 : get_ptIndex va = va / 65536 % 256 := by
    unfold get_ptIndex; rw [and_ff, shr_eq_div]; norm_num
  have h3 : get_pteIndex va = va / 256 % 256 := by
    unfold get_pteIndex; rw [and_ff, shr_eq_div]; norm_num
  have h4 : va &&& 0xFF = va % 256 := and_ff va
  have hv : vpn va = va / 256 := by rw [vpn_of_lt va hva, shr_eq_div]; norm_num
  refine ⟨by omega, by omega, by omega, by omega, ?_, ?_, by rw [hv, shr_eq_div]; norm_num,
    by omega⟩
  · rw [Nat.or_assoc, Nat.or_assoc,
      shl_or_eq_add (get_pteIndex va) (va &&& 0xFF) 8 (by omega),
      shl_or_eq_add (get_ptIndex va) _ 16 (by omega),
      shl_or_eq_add (get_dirI va) _ 24 (by omega)]
    omega
  · rw [Nat.or_assoc,
      shl_or_eq_add (get_ptIndex va) (get_pteIndex va) 8 (by omega),
      shl_or_eq_add (get_dirI va) _ 16 (by omega)]
    omega

/-- Instance of `decoders_partition` at `0x01020340`: indices 1, 2, 3 and
offset `0x40`. -/
theorem decoders_partition_witness :
    (0x01020340 : Nat) < 2 ^ 32 ∧
    get_dirI 0x01020340 = 1 ∧ get_ptIndex 0x01020340 = 2 ∧ get_pteIndex 0x01020340 = 3 ∧
    vpn 0x01020340 = (get_dirI 0x01020340 <<< 16) ||| (get_ptIndex 0x01020340 <<< 8)
      ||| get_pteIndex 0x01020340 :=
  ⟨by decide, by decide, by decide, by decide,
    (decoders_partition 0x01020340 (by decide)).2.2.2.2.2.1⟩

end MMU
